import Mathlib

/-!
# Row partitioning and partition statistics of the GPU tree learner

A shallow embedding of `catboost/cuda/methods/pointiwise_optimization_subsets.h`:
the aggregate `TOptimizationSubsets`, its device projection, the statistics
refresh `UpdateSubsetsStats`, and the two `TSubsetsHelper` specialisations
(`TMirrorMapping`, `TStripeMapping`) with `Split`, `CurrentPartsView` and
`CreateSubsets`.

A distributed buffer is a family of per-device shards; kernels act on every
device's shard separately.  Sums are taken in exact integer arithmetic.
The kernels called by the header (`UpdateBins`, `ReorderBins`, ...) live in
other files; they are modelled by their contracts.  The bin buffer is kept in
permuted order: position `j` holds the bin of row `Indices[j]`.

The 32-bit shift `1 << n` and its conversions are modelled bit-exactly for
`n ≤ 31`, and the `ui32` sums of the header (`CurrentDepth + FoldBits`,
`++CurrentDepth`, `FoldBits + maxDepth`) wrap at `2^32`.  The general properties
below are stated where no `ui32` value wraps and, wherever they speak of a view or
of what a refresh computes, where the shift is defined and the slice lies inside
its buffer.
-/

namespace NCatboostCuda

/-! ## Data model -/

/-- One contiguous run of the permuted order. -/
structure TDataPartition where
  Offset : Nat
  Size : Nat
deriving DecidableEq

/-- Per-partition sums: weighted target and weight. -/
structure TPartitionStatistics where
  Sum : Int
  Weight : Int
deriving DecidableEq

/-- A distributed buffer: the shard held by every device id. -/
abbrev TBuffer (α : Type) := Nat → List α

/-- The two data-distribution strategies the helpers are specialised for. -/
inductive TMapping where
  | Mirror
  | Stripe
deriving DecidableEq

/-- The target source `TL2Target`: per-row weighted target and weight. -/
structure TL2Target where
  WeightedTarget : TBuffer Int
  Weights : TBuffer Int

/-- One device's part of the aggregate (`TOptimizationSubsets<TSingleMapping, true>`). -/
structure TDeviceSubsets where
  Bins : List Nat
  Indices : List Nat
  Partitions : List TDataPartition
  PartitionStats : List TPartitionStatistics
  WeightedTarget : List Int
  Weights : List Int
  FoldCount : Nat
  CurrentDepth : Nat
  FoldBits : Nat
deriving DecidableEq

/-- The aggregate `TOptimizationSubsets<TMapping, false>`.  The three scalars and the
bins are `ui32` in the header: the header's sums of the scalars are taken with
`addUi32`, and the properties below are stated for `CurrentDepth + FoldBits ≤ 31`,
where every bin fits 32 bits. -/
structure TOptimizationSubsets where
  Bins : TBuffer Nat
  Indices : TBuffer Nat
  Partitions : TBuffer TDataPartition
  PartitionStats : TBuffer TPartitionStatistics
  WeightedTarget : TBuffer Int
  Weights : TBuffer Int
  FoldCount : Nat := 0
  CurrentDepth : Nat := 0
  FoldBits : Nat := 0

/-- Modelled from the spec: `TCudaBuffer::DeviceView(dev)`, the shard of one device. -/
def TBuffer.DeviceView {α : Type} (buf : TBuffer α) (dev : Nat) : List α :=
  buf dev

/-- The method `TOptimizationSubsets::DeviceView`: every buffer is projected to the
device, the three scalars are copied. -/
def TOptimizationSubsets.DeviceView (s : TOptimizationSubsets) (dev : Nat) : TDeviceSubsets :=
  { Bins := s.Bins.DeviceView dev
    Indices := s.Indices.DeviceView dev
    Partitions := s.Partitions.DeviceView dev
    PartitionStats := s.PartitionStats.DeviceView dev
    WeightedTarget := s.WeightedTarget.DeviceView dev
    Weights := s.Weights.DeviceView dev
    FoldCount := s.FoldCount
    CurrentDepth := s.CurrentDepth
    FoldBits := s.FoldBits }

/-! ## Machine integers -/

/-- The `int` expression `1 << n`: a 32-bit two's complement value, exact for
`n ≤ 31`.  For `n ≥ 32` the shift is undefined in the language; the value given
here (shift count modulo 32) is not used by any property below. -/
def shlInt (n : Nat) : Int :=
  let r := 2 ^ (n % 32) % 2 ^ 32
  if r < 2 ^ 31 then (r : Int) else (r : Int) - 2 ^ 32

/-- The conversion `static_cast<ui64>` of an `int`. -/
def toUi64 (x : Int) : Nat := (x % 2 ^ 64).toNat

/-- The conversion of an `int` to `ui32`. -/
def toUi32 (x : Int) : Nat := (x % 2 ^ 32).toNat

/-- The sum of two `ui32` values, which wraps at `2^32`. -/
def addUi32 (a b : Nat) : Nat := (a + b) % 2 ^ 32

/-- A half-open index range `TSlice(Left, Right)`. -/
structure TSlice where
  Left : Nat
  Right : Nat
deriving DecidableEq

/-! ## Kernels, modelled by their contracts -/

/-- Modelled from the spec: `SliceView`, the view of the entries of every device's
copy that lie in the slice.  A slice that ends beyond the buffer breaks the
buffer-size precondition; the properties below take views of slices inside the
buffer only. -/
def SliceView {α : Type} (buf : TBuffer α) (slice : TSlice) : TBuffer α :=
  fun dev => ((buf dev).drop slice.Left).take (slice.Right - slice.Left)

/-- Modelled from the spec: `ParallelStripeView`, the same slice of the table taken
on every device.  As for `SliceView`, the properties below take views of slices
inside the table only. -/
def ParallelStripeView {α : Type} (buf : TBuffer α) (slice : TSlice) : TBuffer α :=
  fun dev => ((buf dev).drop slice.Left).take (slice.Right - slice.Left)

/-- Modelled from the spec: `FillBuffer`, every entry set to the value. -/
def FillBuffer {α : Type} (buf : List α) (v : α) : List α :=
  buf.map (fun _ => v)

/-- Modelled from the spec: `MakeSequence`, the identity sequence `0, 1, 2, ...`. -/
def MakeSequence (buf : List Nat) : List Nat :=
  List.range buf.length

/-- First position of a sorted bin array whose bin is at least `v`. -/
def lowerBound (bins : List Nat) (v : Nat) : Nat :=
  (bins.takeWhile (fun b => decide (b < v))).length

/-- Modelled from the spec: `UpdatePartitionDimensions`, partition-boundary
derivation from sorted bins.  Partition `i` starts at the first position whose
bin is at least `i` and ends where partition `i + 1` starts. -/
def UpdatePartitionDimensions (bins : List Nat) (parts : List TDataPartition) :
    List TDataPartition :=
  (List.range parts.length).map
    (fun i => { Offset := lowerBound bins i, Size := lowerBound bins (i + 1) - lowerBound bins i })

/-- Modelled from the spec: the gather of `GatherTarget`, values looked up
through the permutation. -/
def Gather (src : List Int) (indices : List Nat) : List Int :=
  indices.map (fun i => src.getD i 0)

/-- The sum of the run `[offset, offset + size)` of a buffer. -/
def segmentSum (xs : List Int) (offset size : Nat) : Int :=
  ((xs.drop offset).take size).sum

/-- Modelled from the spec: `UpdatePartitionStats`, per-partition reduction of
the gathered values into the statistics buffer. -/
def UpdatePartitionStats (stats : List TPartitionStatistics) (parts : List TDataPartition)
    (weightedTarget weights : List Int) : List TPartitionStatistics :=
  List.zipWith
    (fun _ p => { Sum := segmentSum weightedTarget p.Offset p.Size
                  Weight := segmentSum weights p.Offset p.Size })
    stats parts

/-- Modelled from the spec: `UpdateBins`, the bin update from a precomputed
next-level assignment.  Position `i` looks its row up in `docMap` and sets bit
number `depth + foldBits` of its bin when the row's next-level bit is set. -/
def UpdateBins (bins nextLevelDocBins docMap : List Nat) (depth foldBits : Nat) : List Nat :=
  List.zipWith
    (fun b i => b ||| ((nextLevelDocBins.getD (docMap.getD i 0) 0 % 2) <<< (depth + foldBits)))
    bins (List.range bins.length)

/-- Modelled from the spec: `UpdateBinFromCompressedIndex`, the bin update from
the compressed index.  Position `i` looks its row up in `docs` and sets bit
number `depth` of its bin when the row's compressed word passes the
(feature, threshold) test.  The feature type and the decoding test are
parameters. -/
def UpdateBinFromCompressedIndex {F : Type} (test : F → Nat → Nat → Bool)
    (cindex : List Nat) (feature : F) (bin : Nat)
    (docs : List Nat) (depth : Nat) (bins : List Nat) : List Nat :=
  List.zipWith
    (fun b i =>
      b ||| ((if test feature bin (cindex.getD (docs.getD i 0) 0) then 1 else 0) <<< depth))
    bins (List.range bins.length)

/-- The value of the bit field `[offset, offset + bits)` of a bin. -/
def bitField (offset bits : Nat) (b : Nat) : Nat :=
  (b / 2 ^ offset) % 2 ^ bits

/-- Modelled from the spec: `ReorderBins`, a stable reorder of the bins together
with the permutation, keyed on the bit field `[offset, offset + bits)` of the
bin (counting sort over the field values). -/
def ReorderBins (bins indices : List Nat) (offset bits : Nat) : List Nat × List Nat :=
  let pairs := bins.zip indices
  let sorted := (List.range (2 ^ bits)).flatMap
    (fun v => pairs.filter (fun p => decide (bitField offset bits p.1 = v)))
  sorted.unzip

/-- Modelled from the spec: `Reset`, the storage of every device resized to the
given size. -/
def Reset {α : Type} (fill : α) (sizes : Nat → Nat) : TBuffer α :=
  fun dev => List.replicate (sizes dev) fill

/-- Modelled from the spec: writing through a view that starts at entry 0, the
entries behind the view are kept. -/
def writeView {α : Type} (buf view : TBuffer α) : TBuffer α :=
  fun dev => view dev ++ (buf dev).drop (view dev).length

/-! ## The header -/

/-- The slice `TSlice(0, static_cast<ui64>(1 << (CurrentDepth + FoldBits)))`. -/
def currentSlice (s : TOptimizationSubsets) : TSlice :=
  { Left := 0, Right := toUi64 (shlInt (addUi32 s.CurrentDepth s.FoldBits)) }

/-- The method `TSubsetsHelper<TMapping>::CurrentPartsView`: `SliceView` under the mirror
mapping, `ParallelStripeView` under the stripe mapping. -/
def CurrentPartsView (m : TMapping) (s : TOptimizationSubsets) : TBuffer TDataPartition :=
  match m with
  | TMapping.Mirror => SliceView s.Partitions (currentSlice s)
  | TMapping.Stripe => ParallelStripeView s.Partitions (currentSlice s)

/-- The function `UpdateSubsetsStats`: reset of the statistics to the size of the
active view, boundary derivation written through the view, gather of target and
weight, per-partition reduction. -/
def UpdateSubsetsStats (m : TMapping) (source : TL2Target) (s : TOptimizationSubsets) :
    TOptimizationSubsets :=
  let currentParts := CurrentPartsView m s
  let stats0 : TBuffer TPartitionStatistics :=
    Reset { Sum := 0, Weight := 0 } (fun dev => (currentParts dev).length)
  let newParts : TBuffer TDataPartition :=
    fun dev => UpdatePartitionDimensions (s.Bins dev) (currentParts dev)
  let weightedTarget : TBuffer Int :=
    fun dev => Gather (source.WeightedTarget dev) (s.Indices dev)
  let weights : TBuffer Int :=
    fun dev => Gather (source.Weights dev) (s.Indices dev)
  { s with
    Partitions := writeView s.Partitions newParts
    WeightedTarget := weightedTarget
    Weights := weights
    PartitionStats := fun dev =>
      UpdatePartitionStats (stats0 dev) (newParts dev) (weightedTarget dev) (weights dev) }

/-- The method `TSubsetsHelper<TMirrorMapping>::Split`: bin update, reorder, depth
increment, statistics refresh. -/
def SplitMirror (sourceTarget : TL2Target) (nextLevelDocBins docMap : TBuffer Nat)
    (s : TOptimizationSubsets) : TOptimizationSubsets :=
  let s1 := { s with
    Bins := fun dev =>
      UpdateBins (s.Bins dev) (nextLevelDocBins dev) (docMap dev) s.CurrentDepth s.FoldBits }
  let s2 := { s1 with
    Bins := fun dev =>
      (ReorderBins (s1.Bins dev) (s1.Indices dev) (addUi32 s1.CurrentDepth s1.FoldBits) 1).1
    Indices := fun dev =>
      (ReorderBins (s1.Bins dev) (s1.Indices dev) (addUi32 s1.CurrentDepth s1.FoldBits) 1).2 }
  let s3 := { s2 with CurrentDepth := addUi32 s2.CurrentDepth 1 }
  UpdateSubsetsStats TMapping.Mirror sourceTarget s3

/-- The method `TSubsetsHelper<TStripeMapping>::Split`: bin update from the compressed
index, reorder, depth increment, statistics refresh. -/
def SplitStripe {F : Type} (test : F → Nat → Nat → Bool) (sourceTarget : TL2Target)
    (cindex docsForBins : TBuffer Nat) (feature : Nat → F) (bin : Nat)
    (s : TOptimizationSubsets) : TOptimizationSubsets :=
  let s1 := { s with
    Bins := fun dev =>
      UpdateBinFromCompressedIndex test (cindex dev) (feature dev) bin (docsForBins dev)
        (addUi32 s.CurrentDepth s.FoldBits) (s.Bins dev) }
  let s2 := { s1 with
    Bins := fun dev =>
      (ReorderBins (s1.Bins dev) (s1.Indices dev) (addUi32 s1.CurrentDepth s1.FoldBits) 1).1
    Indices := fun dev =>
      (ReorderBins (s1.Bins dev) (s1.Indices dev) (addUi32 s1.CurrentDepth s1.FoldBits) 1).2 }
  let s3 := { s2 with CurrentDepth := addUi32 s2.CurrentDepth 1 }
  UpdateSubsetsStats TMapping.Stripe sourceTarget s3

/-- The method `TSubsetsHelper<TStripeMapping>::CreateSubsets`: bins and permutation
sized to the rows of every device, tables of `1 << (FoldBits + maxDepth)` entries on
every device, bins 0, identity permutation, one statistics refresh. -/
def CreateSubsets (maxDepth : Nat) (src : TL2Target) : TOptimizationSubsets :=
  let rows : Nat → Nat := fun dev => (src.WeightedTarget dev).length
  let bins0 : TBuffer Nat := Reset 0 rows
  let indices0 : TBuffer Nat := Reset 0 rows
  let maxPartCount : Nat := toUi32 (shlInt (addUi32 0 maxDepth))
  let subsets : TOptimizationSubsets :=
    { Bins := fun dev => FillBuffer (bins0 dev) 0
      Indices := fun dev => MakeSequence (indices0 dev)
      Partitions := Reset { Offset := 0, Size := 0 } (fun _ => maxPartCount)
      PartitionStats := Reset { Sum := 0, Weight := 0 } (fun _ => maxPartCount)
      WeightedTarget := fun _ => []
      Weights := fun _ => []
      FoldCount := 0
      CurrentDepth := 0
      FoldBits := 0 }
  UpdateSubsetsStats TMapping.Stripe src subsets

/-! ## Scenario data -/

/-- Eight rows on device 0, weights 1, targets 1..8 (weighted target = weight * target). -/
def scenarioTarget : TL2Target :=
  { WeightedTarget := fun dev =>
      if dev = 0 then List.zipWith (fun w t => w * t) [1, 1, 1, 1, 1, 1, 1, 1] [1, 2, 3, 4, 5, 6, 7, 8]
      else []
    Weights := fun dev => if dev = 0 then [1, 1, 1, 1, 1, 1, 1, 1] else [] }

/-- The next-level bin of row `r` is `r mod 2`. -/
def scenarioNextBins : TBuffer Nat :=
  fun dev => if dev = 0 then (List.range 8).map (fun r => r % 2) else []

/-! ## Notions used to state the properties -/

/-- The rows whose current bin is `i`: the rows listed by the permutation at the
positions where the bin buffer holds `i`. -/
def rowsOfBin (bins indices : List Nat) (i : Nat) : List Nat :=
  ((bins.zip indices).filter (fun p => decide (p.1 = i))).map Prod.snd

/-- The exact sum of a per-row value over a list of rows. -/
def sumOver (values : List Int) (rows : List Nat) : Int :=
  (rows.map (fun r => values.getD r 0)).sum

/-- The statistics of a set of rows: sum of weighted target and sum of weight. -/
def statsOver (weightedTarget weights : List Int) (rows : List Nat) : TPartitionStatistics :=
  { Sum := sumOver weightedTarget rows, Weight := sumOver weights rows }

/-- An aggregate at depth 31 without rows whose partition table holds `2^31 + 1` entries. -/
def deepSubsets : TOptimizationSubsets :=
  { Bins := fun _ => []
    Indices := fun _ => []
    Partitions := fun _ => List.replicate (2 ^ 31 + 1) { Offset := 0, Size := 0 }
    PartitionStats := fun _ => []
    WeightedTarget := fun _ => []
    Weights := fun _ => []
    FoldCount := 0
    CurrentDepth := 31
    FoldBits := 0 }

/-- A target source without rows. -/
def emptyTarget : TL2Target :=
  { WeightedTarget := fun _ => [], Weights := fun _ => [] }

/-- Three rows on every device at depth 1: rows 2 and 0 in bin 0, row 1 in bin 1. -/
def smallSubsets : TOptimizationSubsets :=
  { Bins := fun _ => [0, 0, 1]
    Indices := fun _ => [2, 0, 1]
    Partitions := fun _ => List.replicate 4 { Offset := 0, Size := 0 }
    PartitionStats := fun _ => []
    WeightedTarget := fun _ => []
    Weights := fun _ => []
    FoldCount := 0
    CurrentDepth := 1
    FoldBits := 0 }

/-- Weighted targets 10, 20, 30 and weights 1, 2, 3 for three rows on every device. -/
def smallTarget : TL2Target :=
  { WeightedTarget := fun _ => [10, 20, 30], Weights := fun _ => [1, 2, 3] }

/-- The common shape of the two bin updates: position `i` gets bit number `n` of its
bin set when `bit i` is 1. -/
def setBit (bit : Nat → Nat) (n : Nat) (bins : List Nat) : List Nat :=
  List.zipWith (fun b i => b ||| (bit i <<< n)) bins (List.range bins.length)

/-- The arguments of one `TSubsetsHelper<TMirrorMapping>::Split` call. -/
structure TMirrorStep where
  NextLevelDocBins : TBuffer Nat
  DocMap : TBuffer Nat

/-- The arguments of one `TSubsetsHelper<TStripeMapping>::Split` call. -/
structure TStripeStep (F : Type) where
  CIndex : TBuffer Nat
  DocsForBins : TBuffer Nat
  Feature : Nat → F
  Bin : Nat

/-- A sequence of split-advancement calls under the mirror mapping. -/
def runMirror (src : TL2Target) (steps : List TMirrorStep) (s : TOptimizationSubsets) :
    TOptimizationSubsets :=
  steps.foldl (fun st a => SplitMirror src a.NextLevelDocBins a.DocMap st) s

/-- A sequence of split-advancement calls under the stripe mapping. -/
def runStripe {F : Type} (test : F → Nat → Nat → Bool) (src : TL2Target)
    (steps : List (TStripeStep F)) (s : TOptimizationSubsets) : TOptimizationSubsets :=
  steps.foldl (fun st a => SplitStripe test src a.CIndex a.DocsForBins a.Feature a.Bin st) s

/-- A depth-0 aggregate without rows whose partition table holds `2^31 + 1` entries. -/
def wideSubsets : TOptimizationSubsets :=
  { Bins := fun _ => []
    Indices := fun _ => []
    Partitions := fun _ => List.replicate (2 ^ 31 + 1) { Offset := 0, Size := 0 }
    PartitionStats := fun _ => []
    WeightedTarget := fun _ => []
    Weights := fun _ => []
    FoldCount := 0
    CurrentDepth := 0
    FoldBits := 0 }

/-- A mirror split call without rows. -/
def emptyMirrorStep : TMirrorStep :=
  { NextLevelDocBins := fun _ => [], DocMap := fun _ => [] }

/-- A stripe split call without rows; the test sends every row to the right. -/
def emptyStripeStep : TStripeStep Unit :=
  { CIndex := fun _ => [], DocsForBins := fun _ => [], Feature := fun _ => (), Bin := 0 }

/-- The mirror split call of the scenario: next-level bin `r mod 2`, rows looked up
through the identity map. -/
def scenarioMirrorStep : TMirrorStep :=
  { NextLevelDocBins := scenarioNextBins
    DocMap := fun dev => if dev = 0 then List.range 8 else [] }

/-- A stripe split call on the scenario rows: the compressed word of row `r` is `r`,
and the test sends odd words to the right. -/
def scenarioStripeStep : TStripeStep Unit :=
  { CIndex := fun dev => if dev = 0 then List.range 8 else []
    DocsForBins := fun dev => if dev = 0 then List.range 8 else []
    Feature := fun _ => ()
    Bin := 0 }

/-- The test of the scenario stripe split: odd compressed words go right. -/
def scenarioTest : Unit → Nat → Nat → Bool :=
  fun _ _ word => word % 2 == 1

/-- The bin of row `r`: the bin stored at the position where the permutation lists `r`. -/
def binOfRow (bins indices : List Nat) (r : Nat) : Nat :=
  ((indices.zip bins).lookup r).getD 0

/-- The bins of the rows of a device, listed by row. -/
def rowBins (s : TOptimizationSubsets) (dev : Nat) : List Nat :=
  (List.range (s.Indices dev).length).map (binOfRow (s.Bins dev) (s.Indices dev))

/-- An aggregate of two rows whose `ui32` depth counter is at its maximum `2^32 - 1`,
with one fold bit. -/
def wrapSubsets : TOptimizationSubsets :=
  { Bins := fun _ => [1, 2]
    Indices := fun _ => [0, 1]
    Partitions := fun _ => List.replicate 2 { Offset := 0, Size := 0 }
    PartitionStats := fun _ => []
    WeightedTarget := fun _ => []
    Weights := fun _ => []
    FoldCount := 2
    CurrentDepth := 4294967295
    FoldBits := 1 }

/-- Two rows with weighted targets 5, 7 and weights 1, 1 on every device. -/
def wrapTarget : TL2Target :=
  { WeightedTarget := fun _ => [5, 7], Weights := fun _ => [1, 1] }

/-- Next-level bins 0 for two rows. -/
def wrapNextBins : TBuffer Nat :=
  fun _ => [0, 0]

/-! ## Machine integers: the shift -/

theorem toUi64_shlInt (n : Nat) (h : n ≤ 30) : toUi64 (shlInt n) = 2 ^ n := by
  interval_cases n <;> rfl

theorem toUi64_shlInt_31 : toUi64 (shlInt 31) = 2 ^ 64 - 2 ^ 31 := by
  rfl

theorem toUi32_shlInt (n : Nat) (h : n ≤ 31) : toUi32 (shlInt n) = 2 ^ n := by
  interval_cases n <;> rfl

theorem addUi32_eq (a b : Nat) (h : a + b < 2 ^ 32) : addUi32 a b = a + b :=
  Nat.mod_eq_of_lt h

theorem addUi32_zero_left (a : Nat) (h : a < 2 ^ 32) : addUi32 0 a = a := by
  rw [addUi32_eq 0 a (by omega), Nat.zero_add]

/-! ## Boundary derivation -/

theorem lowerBound_cons (b : Nat) (bs : List Nat) (v : Nat) :
    lowerBound (b :: bs) v = if b < v then lowerBound bs v + 1 else 0 := by
  unfold lowerBound
  by_cases h : b < v <;> simp [List.takeWhile_cons, h]

theorem lowerBound_zero (bins : List Nat) : lowerBound bins 0 = 0 := by
  cases bins with
  | nil => rfl
  | cons b bs => simp [lowerBound_cons]

theorem lowerBound_eq_length (bins : List Nat) (v : Nat) (h : ∀ b ∈ bins, b < v) :
    lowerBound bins v = bins.length := by
  induction bins with
  | nil => rfl
  | cons b bs ih =>
    rw [lowerBound_cons]
    have h1 : b < v := h b (by simp)
    have h2 : ∀ x ∈ bs, x < v := fun x hx => h x (by simp [hx])
    simp [h1, ih h2]

theorem lowerBound_eq_zero_of_le (bins : List Nat) (v : Nat) (h : ∀ b ∈ bins, v ≤ b) :
    lowerBound bins v = 0 := by
  cases bins with
  | nil => rfl
  | cons b bs =>
    rw [lowerBound_cons]
    have h1 : v ≤ b := h b (by simp)
    have h2 : ¬ b < v := by omega
    simp [h2]

/-- The entries of a bin-sorted buffer whose bin is `i` are exactly the run
between the two boundaries of partition `i`. -/
theorem segment_eq_filter {α : Type} (i : Nat) :
    ∀ (bins : List Nat) (xs : List α), List.Pairwise (fun a b => a ≤ b) bins →
      ((bins.zip xs).drop (lowerBound bins i)).take (lowerBound bins (i + 1) - lowerBound bins i)
        = (bins.zip xs).filter (fun p => decide (p.1 = i)) := by
  intro bins
  induction bins with
  | nil => intro xs _; simp
  | cons b bs ih =>
    intro xs hs
    cases xs with
    | nil => simp
    | cons x xs =>
      have hle : ∀ c ∈ bs, b ≤ c := (List.pairwise_cons.mp hs).1
      have hs2 : List.Pairwise (fun a b => a ≤ b) bs := (List.pairwise_cons.mp hs).2
      rw [lowerBound_cons, lowerBound_cons]
      rcases Nat.lt_trichotomy b i with hlt | heq | hgt
      · have h2 : b < i + 1 := by omega
        have h3 : ¬ b = i := by omega
        simp only [hlt, h2, if_true, List.zip_cons_cons, List.drop_succ_cons]
        rw [Nat.add_sub_add_right, ih xs hs2]
        simp [h3]
      · subst heq
        have h0 : lowerBound bs b = 0 :=
          lowerBound_eq_zero_of_le bs b hle
        have hih := ih xs hs2
        rw [h0] at hih
        simp only [Nat.lt_irrefl, if_false, Nat.lt_succ_self, if_true, List.zip_cons_cons,
          List.drop_zero, Nat.sub_zero, List.take_succ_cons]
        simp only [List.drop_zero, Nat.sub_zero] at hih
        rw [hih]
        simp
      · have h1 : ¬ b < i := by omega
        have h2 : ¬ b < i + 1 := by omega
        simp only [h1, h2, if_false, Nat.sub_self, List.take_zero]
        symm
        rw [List.filter_eq_nil_iff]
        intro p hp
        rcases List.mem_cons.mp hp with hp | hp
        · subst hp
          simp
          omega
        · have := hle p.1 (List.of_mem_zip hp).1
          simp
          omega

/-! ## Per-partition reduction -/

theorem length_UpdatePartitionDimensions (bins : List Nat) (parts : List TDataPartition) :
    (UpdatePartitionDimensions bins parts).length = parts.length := by
  simp [UpdatePartitionDimensions]

theorem getElem?_UpdatePartitionDimensions (bins : List Nat) (parts : List TDataPartition)
    (i : Nat) (hi : i < parts.length) :
    (UpdatePartitionDimensions bins parts)[i]?
      = some { Offset := lowerBound bins i
               Size := lowerBound bins (i + 1) - lowerBound bins i } := by
  simp [UpdatePartitionDimensions, List.getElem?_map, List.getElem?_range hi]

theorem length_UpdatePartitionStats (stats : List TPartitionStatistics)
    (parts : List TDataPartition) (wt w : List Int) :
    (UpdatePartitionStats stats parts wt w).length = min stats.length parts.length := by
  simp [UpdatePartitionStats]

theorem getElem?_UpdatePartitionStats (fill : TPartitionStatistics) (bins : List Nat)
    (parts : List TDataPartition) (wt w : List Int) (i : Nat) (hi : i < parts.length) :
    (UpdatePartitionStats (List.replicate parts.length fill)
        (UpdatePartitionDimensions bins parts) wt w)[i]?
      = some { Sum := segmentSum wt (lowerBound bins i)
                        (lowerBound bins (i + 1) - lowerBound bins i)
               Weight := segmentSum w (lowerBound bins i)
                        (lowerBound bins (i + 1) - lowerBound bins i) } := by
  unfold UpdatePartitionStats
  rw [List.getElem?_zipWith, getElem?_UpdatePartitionDimensions bins parts i hi]
  simp [List.getElem?_replicate, hi]

theorem segmentSum_Gather (src : List Int) (i : Nat) (bins indices : List Nat)
    (hlen : bins.length = indices.length) (hs : List.Pairwise (fun a b => a ≤ b) bins) :
    segmentSum (Gather src indices) (lowerBound bins i)
        (lowerBound bins (i + 1) - lowerBound bins i)
      = sumOver src (rowsOfBin bins indices i) := by
  unfold segmentSum Gather sumOver rowsOfBin
  rw [← segment_eq_filter i bins indices hs]
  have hz : (bins.zip indices).map Prod.snd = indices := List.map_snd_zip _ _ (by omega)
  have h2 : ∀ a n : Nat, ((bins.zip indices).drop a |>.take n).map Prod.snd
      = (indices.drop a).take n := by
    intro a n
    rw [List.map_take, List.map_drop, hz]
  rw [h2, ← List.map_drop, ← List.map_take]

/-! ## The statistics refresh -/

theorem CurrentPartsView_apply (m : TMapping) (s : TOptimizationSubsets) (dev : Nat) :
    CurrentPartsView m s dev = (s.Partitions dev).take (currentSlice s).Right := by
  cases m <;> simp [CurrentPartsView, SliceView, ParallelStripeView, currentSlice]

theorem currentSlice_right (s : TOptimizationSubsets) (h : s.CurrentDepth + s.FoldBits ≤ 30) :
    (currentSlice s).Right = 2 ^ (s.CurrentDepth + s.FoldBits) := by
  unfold currentSlice
  rw [addUi32_eq _ _ (by omega)]
  exact toUi64_shlInt _ h

theorem currentSlice_of_eq (s : TOptimizationSubsets) (n : Nat)
    (h : s.CurrentDepth + s.FoldBits = n) (hn : n < 2 ^ 32) :
    (currentSlice s).Right = toUi64 (shlInt n) := by
  unfold currentSlice
  rw [addUi32_eq _ _ (by omega), h]

theorem UpdateSubsetsStats_Bins (m : TMapping) (src : TL2Target) (s : TOptimizationSubsets) :
    (UpdateSubsetsStats m src s).Bins = s.Bins := rfl

theorem UpdateSubsetsStats_Indices (m : TMapping) (src : TL2Target) (s : TOptimizationSubsets) :
    (UpdateSubsetsStats m src s).Indices = s.Indices := rfl

theorem UpdateSubsetsStats_CurrentDepth (m : TMapping) (src : TL2Target)
    (s : TOptimizationSubsets) :
    (UpdateSubsetsStats m src s).CurrentDepth = s.CurrentDepth := rfl

theorem UpdateSubsetsStats_FoldBits (m : TMapping) (src : TL2Target) (s : TOptimizationSubsets) :
    (UpdateSubsetsStats m src s).FoldBits = s.FoldBits := rfl

theorem UpdateSubsetsStats_PartitionStats (m : TMapping) (src : TL2Target)
    (s : TOptimizationSubsets) (dev : Nat) :
    (UpdateSubsetsStats m src s).PartitionStats dev
      = UpdatePartitionStats
          (List.replicate (CurrentPartsView m s dev).length { Sum := 0, Weight := 0 })
          (UpdatePartitionDimensions (s.Bins dev) (CurrentPartsView m s dev))
          (Gather (src.WeightedTarget dev) (s.Indices dev))
          (Gather (src.Weights dev) (s.Indices dev)) := rfl

theorem UpdateSubsetsStats_Partitions (m : TMapping) (src : TL2Target)
    (s : TOptimizationSubsets) (dev : Nat) :
    (UpdateSubsetsStats m src s).Partitions dev
      = UpdatePartitionDimensions (s.Bins dev) (CurrentPartsView m s dev)
          ++ (s.Partitions dev).drop (CurrentPartsView m s dev).length := by
  simp [UpdateSubsetsStats, writeView, length_UpdatePartitionDimensions]

theorem length_CurrentPartsView (m : TMapping) (s : TOptimizationSubsets) (dev : Nat) :
    (CurrentPartsView m s dev).length = min (currentSlice s).Right (s.Partitions dev).length := by
  rw [CurrentPartsView_apply, List.length_take]

/-- Up to depth 30 the view is the first `2^(CurrentDepth+FoldBits)` table entries. -/
theorem CurrentPartsView_eq_take (m : TMapping) (s : TOptimizationSubsets) (dev : Nat)
    (hd : s.CurrentDepth + s.FoldBits ≤ 30) :
    CurrentPartsView m s dev = (s.Partitions dev).take (2 ^ (s.CurrentDepth + s.FoldBits)) := by
  rw [CurrentPartsView_apply, currentSlice_right s hd]

theorem length_PartitionStats (m : TMapping) (src : TL2Target) (s : TOptimizationSubsets)
    (dev : Nat) :
    ((UpdateSubsetsStats m src s).PartitionStats dev).length
      = min (currentSlice s).Right (s.Partitions dev).length := by
  rw [UpdateSubsetsStats_PartitionStats, length_UpdatePartitionStats,
    length_UpdatePartitionDimensions, List.length_replicate, Nat.min_self,
    length_CurrentPartsView]

theorem length_Partitions (m : TMapping) (src : TL2Target) (s : TOptimizationSubsets)
    (dev : Nat) :
    ((UpdateSubsetsStats m src s).Partitions dev).length = (s.Partitions dev).length := by
  rw [UpdateSubsetsStats_Partitions, List.length_append, length_UpdatePartitionDimensions,
    List.length_drop, length_CurrentPartsView]
  omega

/-- Entry `i` of the refreshed statistics, for every entry of the view. -/
theorem getElem?_PartitionStats (m : TMapping) (src : TL2Target) (s : TOptimizationSubsets)
    (dev i : Nat) (hi : i < (CurrentPartsView m s dev).length)
    (hlen : (s.Bins dev).length = (s.Indices dev).length)
    (hsorted : List.Pairwise (fun a b => a ≤ b) (s.Bins dev)) :
    ((UpdateSubsetsStats m src s).PartitionStats dev)[i]?
      = some (statsOver (src.WeightedTarget dev) (src.Weights dev)
          (rowsOfBin (s.Bins dev) (s.Indices dev) i)) := by
  rw [UpdateSubsetsStats_PartitionStats, getElem?_UpdatePartitionStats _ _ _ _ _ i hi,
    segmentSum_Gather _ i _ _ hlen hsorted, segmentSum_Gather _ i _ _ hlen hsorted]
  rfl

/-! ## C1 -/

/-- C1 (amended). Stats refresh postcondition: when `CurrentDepth + FoldBits ≤ 30`, the
partition table of the device holds at least `2^(CurrentDepth+FoldBits)` entries, the
bin buffer is as long as the permutation and is sorted, then after `UpdateSubsetsStats`
the statistics buffer has exactly `2^(CurrentDepth+FoldBits)` entries and entry `i` is
the exact (weighted target, weight) sum over exactly the rows whose current bin is `i`. -/
theorem UpdateSubsetsStats_postcondition (m : TMapping) (src : TL2Target)
    (s : TOptimizationSubsets) (dev : Nat)
    (hdepth : s.CurrentDepth + s.FoldBits ≤ 30)
    (hcap : 2 ^ (s.CurrentDepth + s.FoldBits) ≤ (s.Partitions dev).length)
    (hlen : (s.Bins dev).length = (s.Indices dev).length)
    (hsorted : List.Pairwise (fun a b => a ≤ b) (s.Bins dev)) :
    ((UpdateSubsetsStats m src s).PartitionStats dev).length
        = 2 ^ (s.CurrentDepth + s.FoldBits)
      ∧ ∀ i, i < 2 ^ (s.CurrentDepth + s.FoldBits) →
          ((UpdateSubsetsStats m src s).PartitionStats dev)[i]?
            = some (statsOver (src.WeightedTarget dev) (src.Weights dev)
                (rowsOfBin (s.Bins dev) (s.Indices dev) i)) := by
  have hv : (CurrentPartsView m s dev).length = 2 ^ (s.CurrentDepth + s.FoldBits) := by
    rw [length_CurrentPartsView, currentSlice_right s hdepth]
    omega
  refine ⟨?_, ?_⟩
  · rw [length_PartitionStats, currentSlice_right s hdepth]
    omega
  · intro i hi
    exact getElem?_PartitionStats m src s dev i (by omega) hlen hsorted

/-- C1 at three rows: the two bins of `smallSubsets` get the sums (40, 4) and (20, 2). -/
theorem UpdateSubsetsStats_postcondition_witness :
    ((UpdateSubsetsStats TMapping.Mirror smallTarget smallSubsets).PartitionStats 0).length
        = 2 ^ (smallSubsets.CurrentDepth + smallSubsets.FoldBits)
      ∧ ∀ i, i < 2 ^ (smallSubsets.CurrentDepth + smallSubsets.FoldBits) →
          ((UpdateSubsetsStats TMapping.Mirror smallTarget smallSubsets).PartitionStats 0)[i]?
            = some (statsOver (smallTarget.WeightedTarget 0) (smallTarget.Weights 0)
                (rowsOfBin (smallSubsets.Bins 0) (smallSubsets.Indices 0) i)) :=
  UpdateSubsetsStats_postcondition TMapping.Mirror smallTarget smallSubsets 0
    (by decide) (by decide) (by decide) (by decide)

/-- C1 as stated fails at depth 31: the `int` shift `1 << 31` is negative, the slice
bound becomes `2^64 - 2^31`, and a table of `2^31 + 1` entries is taken whole, so the
statistics buffer gets `2^31 + 1` entries instead of `2^31`. -/
theorem UpdateSubsetsStats_depth31_counterexample :
    List.Pairwise (fun a b => a ≤ b) (deepSubsets.Bins 0)
      ∧ (∀ b ∈ deepSubsets.Bins 0, b < 2 ^ (deepSubsets.CurrentDepth + deepSubsets.FoldBits))
      ∧ ((UpdateSubsetsStats TMapping.Mirror emptyTarget deepSubsets).PartitionStats 0).length
          ≠ 2 ^ (deepSubsets.CurrentDepth + deepSubsets.FoldBits) := by
  refine ⟨List.Pairwise.nil, ?_, ?_⟩
  · intro b hb
    cases hb
  · rw [length_PartitionStats]
    show min (toUi64 (shlInt 31)) (List.replicate (2 ^ 31 + 1) _).length ≠ 2 ^ 31
    rw [List.length_replicate, toUi64_shlInt_31]
    decide

/-! ## Construction -/

theorem sumOver_range (xs : List Int) (n : Nat) :
    sumOver xs (List.range n) = (xs.take n).sum := by
  unfold sumOver
  induction n with
  | zero => simp
  | succ n ih =>
    rw [List.range_succ, List.map_append, List.sum_append, ih, List.take_succ,
      List.sum_append]
    congr 1
    by_cases h : n < xs.length
    · simp [List.getD, List.getElem?_eq_getElem h]
    · simp [List.getD, List.getElem?_eq_none (Nat.le_of_not_lt h)]

theorem rowsOfBin_replicate_range (n : Nat) :
    rowsOfBin (List.replicate n 0) (List.range n) 0 = List.range n := by
  unfold rowsOfBin
  have h : (List.filter (fun p => decide (p.1 = 0)) ((List.replicate n 0).zip (List.range n)))
      = (List.replicate n 0).zip (List.range n) := by
    rw [List.filter_eq_self]
    intro p hp
    have := List.eq_of_mem_replicate (List.of_mem_zip hp).1
    simp [this]
  rw [h, List.map_snd_zip]
  simp

/-- C2. Construction postcondition: for every `maxDepth ≤ 31` (the shift
`1 << (FoldBits + maxDepth)` is defined) and every source, on every device with `N`
rows the aggregate returned by `CreateSubsets` has depth 0 and fold bits 0, the
identity permutation over `[0, N)`, every bin 0, exactly one active partition entry
`{offset 0, size N}`, taken by a slice `[0, 1)` that lies inside the table of
`2^maxDepth` entries, and one statistics entry holding the sums of the weighted
target and of the weight over all rows. -/
theorem CreateSubsets_postcondition (maxDepth : Nat) (src : TL2Target) (dev : Nat)
    (hmax : maxDepth ≤ 31) :
    (CreateSubsets maxDepth src).CurrentDepth = 0
      ∧ (CreateSubsets maxDepth src).FoldBits = 0
      ∧ (CreateSubsets maxDepth src).Indices dev
          = List.range (src.WeightedTarget dev).length
      ∧ (CreateSubsets maxDepth src).Bins dev
          = List.replicate (src.WeightedTarget dev).length 0
      ∧ ((CreateSubsets maxDepth src).Partitions dev).length = 2 ^ maxDepth
      ∧ (currentSlice (CreateSubsets maxDepth src)).Right = 1
      ∧ CurrentPartsView TMapping.Stripe (CreateSubsets maxDepth src) dev
          = [{ Offset := 0, Size := (src.WeightedTarget dev).length }]
      ∧ (CreateSubsets maxDepth src).PartitionStats dev
          = [{ Sum := (src.WeightedTarget dev).sum
               Weight := ((src.Weights dev).take (src.WeightedTarget dev).length).sum }] := by
  have hT : toUi32 (shlInt (addUi32 0 maxDepth)) = 2 ^ maxDepth := by
    rw [addUi32_zero_left _ (by omega), toUi32_shlInt _ hmax]
  have hP : 1 ≤ toUi32 (shlInt (addUi32 0 maxDepth)) := by
    rw [hT]
    exact Nat.one_le_two_pow
  obtain ⟨P, hPeq⟩ : ∃ P, toUi32 (shlInt (addUi32 0 maxDepth)) = P + 1 :=
    ⟨_, (Nat.sub_add_cancel hP).symm⟩
  have hlb0 : ∀ n : Nat, lowerBound (List.replicate n 0) 0 = 0 := fun n => lowerBound_zero _
  have hlb1 : ∀ n : Nat, lowerBound (List.replicate n 0) 1 = n := by
    intro n
    rw [lowerBound_eq_length]
    · simp
    · intro b hb
      have := List.eq_of_mem_replicate hb
      omega
  refine ⟨rfl, rfl, ?_, ?_, ?_, rfl, ?_, ?_⟩
  · simp [CreateSubsets, UpdateSubsetsStats, MakeSequence, Reset]
  · simp [CreateSubsets, UpdateSubsetsStats, FillBuffer, Reset]
  · unfold CreateSubsets
    rw [length_Partitions]
    simp only [Reset, List.length_replicate]
    exact hT
  · rw [CurrentPartsView_apply]
    have h1 : (currentSlice (CreateSubsets maxDepth src)).Right = 1 := rfl
    rw [h1]
    unfold CreateSubsets
    rw [UpdateSubsetsStats_Partitions, CurrentPartsView_apply]
    have h2 : ∀ s : TOptimizationSubsets, s.CurrentDepth = 0 → s.FoldBits = 0 →
        (currentSlice s).Right = 1 := by
      intro s h3 h4
      simp [currentSlice, h3, h4]
      rfl
    rw [h2 _ rfl rfl]
    simp only [Reset, hPeq, List.replicate_succ, List.take_succ_cons, List.take_zero,
      FillBuffer, List.map_replicate]
    have hr : List.range 1 = [0] := rfl
    simp [UpdatePartitionDimensions, hlb0, hlb1, hr]
  · unfold CreateSubsets
    rw [UpdateSubsetsStats_PartitionStats, CurrentPartsView_apply]
    have h2 : ∀ s : TOptimizationSubsets, s.CurrentDepth = 0 → s.FoldBits = 0 →
        (currentSlice s).Right = 1 := by
      intro s h3 h4
      simp [currentSlice, h3, h4]
      rfl
    rw [h2 _ rfl rfl]
    simp only [Reset, hPeq, List.replicate_succ, List.take_succ_cons, List.take_zero,
      FillBuffer, List.map_replicate, MakeSequence, List.length_replicate]
    have hr : List.range 1 = [0] := rfl
    have hrep : ∀ z : TPartitionStatistics, List.replicate 1 z = [z] := fun _ => rfl
    simp only [UpdatePartitionStats, UpdatePartitionDimensions, List.length_singleton,
      hr, hrep, List.map_cons, List.map_nil, List.zipWith_cons_cons, List.zipWith_nil_right,
      hlb0, hlb1, Nat.sub_zero, segmentSum, List.drop_zero, Gather, Nat.zero_add]
    have e1 : List.take (src.WeightedTarget dev).length
        (List.map (fun i => (src.WeightedTarget dev).getD i 0)
          (List.range (src.WeightedTarget dev).length))
        = List.map (fun i => (src.WeightedTarget dev).getD i 0)
          (List.range (src.WeightedTarget dev).length) := by
      rw [List.take_of_length_le]
      simp
    have e2 : List.take (src.WeightedTarget dev).length
        (List.map (fun i => (src.Weights dev).getD i 0)
          (List.range (src.WeightedTarget dev).length))
        = List.map (fun i => (src.Weights dev).getD i 0)
          (List.range (src.WeightedTarget dev).length) := by
      rw [List.take_of_length_le]
      simp
    rw [e1, e2]
    have s1 := sumOver_range (src.WeightedTarget dev) (src.WeightedTarget dev).length
    have s2 := sumOver_range (src.Weights dev) (src.WeightedTarget dev).length
    unfold sumOver at s1 s2
    rw [s1, s2, List.take_length]

/-- C2 on the eight-row scenario with `maxDepth = 1`. -/
theorem CreateSubsets_postcondition_witness :
    (CreateSubsets 1 scenarioTarget).CurrentDepth = 0
      ∧ (CreateSubsets 1 scenarioTarget).FoldBits = 0
      ∧ (CreateSubsets 1 scenarioTarget).Indices 0
          = List.range (scenarioTarget.WeightedTarget 0).length
      ∧ (CreateSubsets 1 scenarioTarget).Bins 0
          = List.replicate (scenarioTarget.WeightedTarget 0).length 0
      ∧ ((CreateSubsets 1 scenarioTarget).Partitions 0).length = 2 ^ 1
      ∧ (currentSlice (CreateSubsets 1 scenarioTarget)).Right = 1
      ∧ CurrentPartsView TMapping.Stripe (CreateSubsets 1 scenarioTarget) 0
          = [{ Offset := 0, Size := (scenarioTarget.WeightedTarget 0).length }]
      ∧ (CreateSubsets 1 scenarioTarget).PartitionStats 0
          = [{ Sum := (scenarioTarget.WeightedTarget 0).sum
               Weight := ((scenarioTarget.Weights 0).take
                 (scenarioTarget.WeightedTarget 0).length).sum }] :=
  CreateSubsets_postcondition 1 scenarioTarget 0 (by decide)

/-! ## Bin update and stable reorder on one device -/

theorem UpdateBins_eq_setBit (bins next docMap : List Nat) (depth foldBits : Nat) :
    UpdateBins bins next docMap depth foldBits
      = setBit (fun i => next.getD (docMap.getD i 0) 0 % 2) (depth + foldBits) bins := rfl

theorem UpdateBinFromCompressedIndex_eq_setBit {F : Type} (test : F → Nat → Nat → Bool)
    (cindex : List Nat) (feature : F) (bin : Nat) (docs : List Nat) (depth : Nat)
    (bins : List Nat) :
    UpdateBinFromCompressedIndex test cindex feature bin docs depth bins
      = setBit (fun i => if test feature bin (cindex.getD (docs.getD i 0) 0) then 1 else 0)
          depth bins := rfl

theorem or_shiftLeft_eq_add (b β n : Nat) (hb : b < 2 ^ n) :
    b ||| (β <<< n) = b + β * 2 ^ n := by
  rw [Nat.shiftLeft_eq, Nat.lor_comm, Nat.mul_comm, ← Nat.mul_add_lt_is_or hb, Nat.add_comm]

theorem bitField_add (b β n : Nat) (hb : b < 2 ^ n) (hβ : β < 2) :
    bitField n 1 (b + β * 2 ^ n) = β := by
  unfold bitField
  rw [Nat.add_mul_div_right _ _ (Nat.two_pow_pos n), Nat.div_eq_of_lt hb]
  simp
  omega

theorem bitField_one_lt (n b : Nat) : bitField n 1 b < 2 := by
  unfold bitField
  exact Nat.mod_lt _ (by norm_num)

theorem length_setBit (bit : Nat → Nat) (n : Nat) (bins : List Nat) :
    (setBit bit n bins).length = bins.length := by
  simp [setBit]

theorem getElem_setBit (bit : Nat → Nat) (n : Nat) (bins : List Nat) (j : Nat)
    (hj : j < (setBit bit n bins).length) (hj2 : j < bins.length) :
    (setBit bit n bins)[j] = bins[j] ||| (bit j <<< n) := by
  simp [setBit, List.getElem_zipWith]

/-- With bits = 1 the counting sort lists the entries whose key bit is 0, then those
whose key bit is 1, each group in its previous order. -/
theorem ReorderBins_one (bins indices : List Nat) (offset : Nat) :
    ReorderBins bins indices offset 1
      = (((bins.zip indices).filter (fun p => decide (bitField offset 1 p.1 = 0))
            ++ (bins.zip indices).filter (fun p => decide (bitField offset 1 p.1 = 1))).map
            Prod.fst,
         ((bins.zip indices).filter (fun p => decide (bitField offset 1 p.1 = 0))
            ++ (bins.zip indices).filter (fun p => decide (bitField offset 1 p.1 = 1))).map
            Prod.snd) := by
  unfold ReorderBins
  have hr : List.range (2 ^ 1) = [0, 1] := rfl
  simp only [hr, List.unzip_eq_map, List.flatMap_cons, List.flatMap_nil, List.append_nil]

theorem reorder_pairs_perm (pairs : List (Nat × Nat)) (offset : Nat) :
    (pairs.filter (fun p => decide (bitField offset 1 p.1 = 0))
        ++ pairs.filter (fun p => decide (bitField offset 1 p.1 = 1))).Perm pairs := by
  have h : (fun p : Nat × Nat => decide (bitField offset 1 p.1 = 1))
      = (fun p => !(decide (bitField offset 1 p.1 = 0))) := by
    funext p
    have := bitField_one_lt offset p.1
    by_cases h0 : bitField offset 1 p.1 = 0
    · simp [h0]
    · have h1 : bitField offset 1 p.1 = 1 := by omega
      simp [h1]
  rw [h]
  exact List.filter_append_perm _ _

theorem zip_ReorderBins (bins indices : List Nat) (offset : Nat) :
    (ReorderBins bins indices offset 1).1.zip (ReorderBins bins indices offset 1).2
      = (bins.zip indices).filter (fun p => decide (bitField offset 1 p.1 = 0))
          ++ (bins.zip indices).filter (fun p => decide (bitField offset 1 p.1 = 1)) := by
  rw [ReorderBins_one]
  simp only
  rw [← List.unzip_fst, ← List.unzip_snd, List.zip_unzip]

theorem ReorderBins_zip_perm (bins indices : List Nat) (offset : Nat) :
    ((ReorderBins bins indices offset 1).1.zip (ReorderBins bins indices offset 1).2).Perm
      (bins.zip indices) := by
  rw [zip_ReorderBins]
  exact reorder_pairs_perm _ _

theorem ReorderBins_length (bins indices : List Nat) (offset : Nat) :
    (ReorderBins bins indices offset 1).1.length = (ReorderBins bins indices offset 1).2.length := by
  rw [ReorderBins_one]
  simp

theorem ReorderBins_indices_perm (bins indices : List Nat) (offset : Nat)
    (hlen : bins.length = indices.length) :
    (ReorderBins bins indices offset 1).2.Perm indices := by
  have h := (reorder_pairs_perm (bins.zip indices) offset).map Prod.snd
  rw [List.map_snd_zip _ _ (by omega)] at h
  rw [ReorderBins_one]
  exact h

theorem ReorderBins_bins_perm (bins indices : List Nat) (offset : Nat)
    (hlen : bins.length = indices.length) :
    (ReorderBins bins indices offset 1).1.Perm bins := by
  have h := (reorder_pairs_perm (bins.zip indices) offset).map Prod.fst
  rw [List.map_fst_zip _ _ (by omega)] at h
  rw [ReorderBins_one]
  exact h

theorem getElem_setBit_add (bit : Nat → Nat) (n : Nat) (bins : List Nat)
    (hr : ∀ b ∈ bins, b < 2 ^ n) (j : Nat) (hj : j < (setBit bit n bins).length)
    (hj2 : j < bins.length) :
    (setBit bit n bins)[j] = bins[j] + bit j * 2 ^ n := by
  rw [getElem_setBit bit n bins j hj hj2,
    or_shiftLeft_eq_add _ _ _ (hr _ (List.getElem_mem hj2))]

theorem mem_setBit (bit : Nat → Nat) (n : Nat) (bins : List Nat)
    (hr : ∀ b ∈ bins, b < 2 ^ n) (x : Nat) (hx : x ∈ setBit bit n bins) :
    ∃ j, ∃ hj : j < bins.length, x = bins[j] + bit j * 2 ^ n := by
  obtain ⟨j, hj, hjx⟩ := List.mem_iff_getElem.mp hx
  have hj2 : j < bins.length := by rw [length_setBit] at hj; exact hj
  exact ⟨j, hj2, by rw [← hjx, getElem_setBit_add bit n bins hr j hj hj2]⟩

theorem setBit_lt (bit : Nat → Nat) (n : Nat) (bins : List Nat)
    (hr : ∀ b ∈ bins, b < 2 ^ n) (hbit : ∀ i, bit i < 2) (x : Nat)
    (hx : x ∈ setBit bit n bins) : x < 2 ^ (n + 1) := by
  obtain ⟨j, hj, rfl⟩ := mem_setBit bit n bins hr x hx
  have h1 := hr _ (List.getElem_mem hj)
  have h2 := hbit j
  have h3 : bit j * 2 ^ n ≤ 1 * 2 ^ n := Nat.mul_le_mul_right _ (by omega)
  rw [Nat.pow_succ]
  omega

theorem ReorderBins_fst (bins indices : List Nat) (offset : Nat)
    (hlen : bins.length = indices.length) :
    (ReorderBins bins indices offset 1).1
      = bins.filter (fun b => decide (bitField offset 1 b = 0))
          ++ bins.filter (fun b => decide (bitField offset 1 b = 1)) := by
  rw [ReorderBins_one]
  simp only [List.map_append]
  have h : ∀ v : Nat,
      List.map Prod.fst
          (List.filter (fun p => decide (bitField offset 1 p.1 = v)) (bins.zip indices))
        = List.filter (fun b => decide (bitField offset 1 b = v)) bins := by
    intro v
    have e := List.filter_map (p := fun b => decide (bitField offset 1 b = v)) Prod.fst
      (bins.zip indices)
    rw [List.map_fst_zip _ _ (by omega)] at e
    rw [e]
    rfl
  rw [h 0, h 1]

theorem bitField_zero_lt (n x : Nat) (hx : x < 2 ^ (n + 1)) (h0 : bitField n 1 x = 0) :
    x < 2 ^ n := by
  unfold bitField at h0
  have h1 : x / 2 ^ n < 2 := by
    rw [Nat.div_lt_iff_lt_mul (Nat.two_pow_pos n)]
    rw [Nat.pow_succ] at hx
    omega
  have h2 : x / 2 ^ n = 0 := by
    have h3 : x / 2 ^ n % 2 = 0 := by simpa using h0
    generalize x / 2 ^ n = q at h1 h3
    omega
  exact (Nat.div_eq_zero_iff (Nat.two_pow_pos n)).mp h2

theorem bitField_one_ge (n x : Nat) (h1 : bitField n 1 x = 1) : 2 ^ n ≤ x := by
  unfold bitField at h1
  by_contra hlt
  have h2 : x / 2 ^ n = 0 := Nat.div_eq_of_lt (by omega)
  rw [h2] at h1
  simp at h1

/-- After the bin update and the stable reorder the bin buffer is sorted again. -/
theorem reorder_sorted (bit : Nat → Nat) (n : Nat) (bins indices : List Nat)
    (hlen : bins.length = indices.length)
    (hs : List.Pairwise (fun a b => a ≤ b) bins)
    (hr : ∀ b ∈ bins, b < 2 ^ n) (hbit : ∀ i, bit i < 2) :
    List.Pairwise (fun a b => a ≤ b) (ReorderBins (setBit bit n bins) indices n 1).1 := by
  have hkey : List.Pairwise (fun x y => bitField n 1 x = bitField n 1 y → x ≤ y)
      (setBit bit n bins) := by
    rw [List.pairwise_iff_getElem]
    intro i j hi hj hij
    have hi2 : i < bins.length := by rw [length_setBit] at hi; exact hi
    have hj2 : j < bins.length := by rw [length_setBit] at hj; exact hj
    rw [getElem_setBit_add bit n bins hr i hi hi2, getElem_setBit_add bit n bins hr j hj hj2,
      bitField_add _ _ _ (hr _ (List.getElem_mem hi2)) (hbit i),
      bitField_add _ _ _ (hr _ (List.getElem_mem hj2)) (hbit j)]
    intro hb
    rw [hb]
    have := (List.pairwise_iff_getElem.mp hs) i j hi2 hj2 hij
    omega
  have hpart : ∀ v : Nat, List.Pairwise (fun a b => a ≤ b)
      ((setBit bit n bins).filter (fun b => decide (bitField n 1 b = v))) := by
    intro v
    refine List.Pairwise.imp_of_mem ?_ (hkey.filter _)
    intro a b ha hb hab
    have ha2 := (List.mem_filter.mp ha).2
    have hb2 := (List.mem_filter.mp hb).2
    simp at ha2 hb2
    exact hab (by rw [ha2, hb2])
  rw [ReorderBins_fst _ _ _ (by rw [length_setBit]; exact hlen), List.pairwise_append]
  refine ⟨hpart 0, hpart 1, ?_⟩
  intro a ha b hb
  have ha1 := List.mem_filter.mp ha
  have hb1 := List.mem_filter.mp hb
  have ha2 := ha1.2
  have hb2 := hb1.2
  simp at ha2 hb2
  have h1 := bitField_zero_lt n a (setBit_lt bit n bins hr hbit a ha1.1) ha2
  have h2 := bitField_one_ge n b hb2
  omega

theorem reorder_lt (bit : Nat → Nat) (n : Nat) (bins indices : List Nat)
    (hlen : bins.length = indices.length)
    (hr : ∀ b ∈ bins, b < 2 ^ n) (hbit : ∀ i, bit i < 2) :
    ∀ x ∈ (ReorderBins (setBit bit n bins) indices n 1).1, x < 2 ^ (n + 1) := by
  intro x hx
  have hp := ReorderBins_bins_perm (setBit bit n bins) indices n
    (by rw [length_setBit]; exact hlen)
  exact setBit_lt bit n bins hr hbit x (hp.subset hx)

/-! ## Split on the aggregate -/

theorem SplitMirror_Bins (src : TL2Target) (next docMap : TBuffer Nat)
    (s : TOptimizationSubsets) (dev : Nat) (h : s.CurrentDepth + s.FoldBits < 2 ^ 32) :
    (SplitMirror src next docMap s).Bins dev
      = (ReorderBins (UpdateBins (s.Bins dev) (next dev) (docMap dev) s.CurrentDepth s.FoldBits)
          (s.Indices dev) (s.CurrentDepth + s.FoldBits) 1).1 := by
  show (ReorderBins _ _ (addUi32 s.CurrentDepth s.FoldBits) 1).1 = _
  rw [addUi32_eq _ _ h]

theorem SplitMirror_Indices (src : TL2Target) (next docMap : TBuffer Nat)
    (s : TOptimizationSubsets) (dev : Nat) (h : s.CurrentDepth + s.FoldBits < 2 ^ 32) :
    (SplitMirror src next docMap s).Indices dev
      = (ReorderBins (UpdateBins (s.Bins dev) (next dev) (docMap dev) s.CurrentDepth s.FoldBits)
          (s.Indices dev) (s.CurrentDepth + s.FoldBits) 1).2 := by
  show (ReorderBins _ _ (addUi32 s.CurrentDepth s.FoldBits) 1).2 = _
  rw [addUi32_eq _ _ h]

theorem SplitMirror_CurrentDepth_wrap (src : TL2Target) (next docMap : TBuffer Nat)
    (s : TOptimizationSubsets) :
    (SplitMirror src next docMap s).CurrentDepth = addUi32 s.CurrentDepth 1 := rfl

theorem SplitMirror_CurrentDepth (src : TL2Target) (next docMap : TBuffer Nat)
    (s : TOptimizationSubsets) (h : s.CurrentDepth + 1 < 2 ^ 32) :
    (SplitMirror src next docMap s).CurrentDepth = s.CurrentDepth + 1 := by
  rw [SplitMirror_CurrentDepth_wrap, addUi32_eq _ _ h]

theorem SplitMirror_FoldBits (src : TL2Target) (next docMap : TBuffer Nat)
    (s : TOptimizationSubsets) :
    (SplitMirror src next docMap s).FoldBits = s.FoldBits := rfl

theorem SplitStripe_Bins {F : Type} (test : F → Nat → Nat → Bool) (src : TL2Target)
    (cindex docs : TBuffer Nat) (feature : Nat → F) (bin : Nat)
    (s : TOptimizationSubsets) (dev : Nat) (h : s.CurrentDepth + s.FoldBits < 2 ^ 32) :
    (SplitStripe test src cindex docs feature bin s).Bins dev
      = (ReorderBins
          (UpdateBinFromCompressedIndex test (cindex dev) (feature dev) bin (docs dev)
            (s.CurrentDepth + s.FoldBits) (s.Bins dev))
          (s.Indices dev) (s.CurrentDepth + s.FoldBits) 1).1 := by
  show (ReorderBins (UpdateBinFromCompressedIndex test (cindex dev) (feature dev) bin (docs dev)
    (addUi32 s.CurrentDepth s.FoldBits) (s.Bins dev)) _ (addUi32 s.CurrentDepth s.FoldBits) 1).1
    = _
  rw [addUi32_eq _ _ h]

theorem SplitStripe_Indices {F : Type} (test : F → Nat → Nat → Bool) (src : TL2Target)
    (cindex docs : TBuffer Nat) (feature : Nat → F) (bin : Nat)
    (s : TOptimizationSubsets) (dev : Nat) (h : s.CurrentDepth + s.FoldBits < 2 ^ 32) :
    (SplitStripe test src cindex docs feature bin s).Indices dev
      = (ReorderBins
          (UpdateBinFromCompressedIndex test (cindex dev) (feature dev) bin (docs dev)
            (s.CurrentDepth + s.FoldBits) (s.Bins dev))
          (s.Indices dev) (s.CurrentDepth + s.FoldBits) 1).2 := by
  show (ReorderBins (UpdateBinFromCompressedIndex test (cindex dev) (feature dev) bin (docs dev)
    (addUi32 s.CurrentDepth s.FoldBits) (s.Bins dev)) _ (addUi32 s.CurrentDepth s.FoldBits) 1).2
    = _
  rw [addUi32_eq _ _ h]

theorem SplitStripe_CurrentDepth_wrap {F : Type} (test : F → Nat → Nat → Bool)
    (src : TL2Target) (cindex docs : TBuffer Nat) (feature : Nat → F) (bin : Nat)
    (s : TOptimizationSubsets) :
    (SplitStripe test src cindex docs feature bin s).CurrentDepth
      = addUi32 s.CurrentDepth 1 := rfl

theorem SplitStripe_CurrentDepth {F : Type} (test : F → Nat → Nat → Bool) (src : TL2Target)
    (cindex docs : TBuffer Nat) (feature : Nat → F) (bin : Nat) (s : TOptimizationSubsets)
    (h : s.CurrentDepth + 1 < 2 ^ 32) :
    (SplitStripe test src cindex docs feature bin s).CurrentDepth = s.CurrentDepth + 1 := by
  rw [SplitStripe_CurrentDepth_wrap, addUi32_eq _ _ h]

theorem SplitStripe_FoldBits {F : Type} (test : F → Nat → Nat → Bool) (src : TL2Target)
    (cindex docs : TBuffer Nat) (feature : Nat → F) (bin : Nat) (s : TOptimizationSubsets) :
    (SplitStripe test src cindex docs feature bin s).FoldBits = s.FoldBits := rfl

/-- The bin update followed by the stable reorder, on one device. -/
theorem reorder_invariant (bit : Nat → Nat) (n : Nat) (bins indices rows : List Nat)
    (hperm : indices.Perm rows)
    (hlen : bins.length = indices.length)
    (hr : ∀ b ∈ bins, b < 2 ^ n)
    (hs : List.Pairwise (fun a b => a ≤ b) bins)
    (hbit : ∀ i, bit i < 2) :
    (ReorderBins (setBit bit n bins) indices n 1).2.Perm rows
      ∧ (ReorderBins (setBit bit n bins) indices n 1).1.length
          = (ReorderBins (setBit bit n bins) indices n 1).2.length
      ∧ (∀ x ∈ (ReorderBins (setBit bit n bins) indices n 1).1, x < 2 ^ (n + 1))
      ∧ List.Pairwise (fun a b => a ≤ b) (ReorderBins (setBit bit n bins) indices n 1).1
      ∧ ((ReorderBins (setBit bit n bins) indices n 1).1.zip
            (ReorderBins (setBit bit n bins) indices n 1).2).Perm
          ((setBit bit n bins).zip indices) := by
  have hl : (setBit bit n bins).length = indices.length := by rw [length_setBit]; exact hlen
  exact ⟨(ReorderBins_indices_perm _ _ _ hl).trans hperm, ReorderBins_length _ _ _,
    reorder_lt bit n bins indices hlen hr hbit, reorder_sorted bit n bins indices hlen hs hr hbit,
    ReorderBins_zip_perm _ _ _⟩

/-! ## C4 -/

/-- C4 (amended). The permutation invariant is preserved by split-advancement, under
both strategies, when `CurrentDepth + FoldBits ≤ 31` (bit number
`CurrentDepth + FoldBits` exists in a `ui32` bin and the `ui32` sum does not wrap): if
on a device the permutation lists every row of `rows` once, the bin buffer is as long
as the permutation, every bin is below `2^(CurrentDepth+FoldBits)` and the bins in
permuted order are non-decreasing, then after `Split` the permutation still lists
every row once, the bins in permuted order are again non-decreasing, and every row
has kept its updated bin. -/
theorem Split_preserves_permutation {F : Type} (test : F → Nat → Nat → Bool)
    (src : TL2Target) (next docMap cindex docs : TBuffer Nat) (feature : Nat → F) (bin : Nat)
    (s : TOptimizationSubsets) (dev : Nat) (rows : List Nat)
    (hdepth : s.CurrentDepth + s.FoldBits ≤ 31)
    (hperm : (s.Indices dev).Perm rows)
    (hlen : (s.Bins dev).length = (s.Indices dev).length)
    (hrange : ∀ b ∈ s.Bins dev, b < 2 ^ (s.CurrentDepth + s.FoldBits))
    (hsorted : List.Pairwise (fun a b => a ≤ b) (s.Bins dev)) :
    (((SplitMirror src next docMap s).Indices dev).Perm rows
        ∧ List.Pairwise (fun a b => a ≤ b) ((SplitMirror src next docMap s).Bins dev)
        ∧ (((SplitMirror src next docMap s).Bins dev).zip
              ((SplitMirror src next docMap s).Indices dev)).Perm
            ((UpdateBins (s.Bins dev) (next dev) (docMap dev) s.CurrentDepth s.FoldBits).zip
              (s.Indices dev)))
      ∧ (((SplitStripe test src cindex docs feature bin s).Indices dev).Perm rows
        ∧ List.Pairwise (fun a b => a ≤ b)
            ((SplitStripe test src cindex docs feature bin s).Bins dev)
        ∧ (((SplitStripe test src cindex docs feature bin s).Bins dev).zip
              ((SplitStripe test src cindex docs feature bin s).Indices dev)).Perm
            ((UpdateBinFromCompressedIndex test (cindex dev) (feature dev) bin (docs dev)
                (s.CurrentDepth + s.FoldBits) (s.Bins dev)).zip (s.Indices dev))) := by
  have hw : s.CurrentDepth + s.FoldBits < 2 ^ 32 := by omega
  constructor
  · rw [SplitMirror_Bins _ _ _ _ _ hw, SplitMirror_Indices _ _ _ _ _ hw, UpdateBins_eq_setBit]
    have h := reorder_invariant (fun i => (next dev).getD ((docMap dev).getD i 0) 0 % 2)
      (s.CurrentDepth + s.FoldBits) (s.Bins dev) (s.Indices dev) rows hperm hlen hrange hsorted
      (fun i => Nat.mod_lt _ (by norm_num))
    exact ⟨h.1, h.2.2.2.1, h.2.2.2.2⟩
  · rw [SplitStripe_Bins _ _ _ _ _ _ _ _ hw, SplitStripe_Indices _ _ _ _ _ _ _ _ hw,
      UpdateBinFromCompressedIndex_eq_setBit]
    have h := reorder_invariant
      (fun i => if test (feature dev) bin ((cindex dev).getD ((docs dev).getD i 0) 0) then 1 else 0)
      (s.CurrentDepth + s.FoldBits) (s.Bins dev) (s.Indices dev) rows hperm hlen hrange hsorted
      (fun i => by dsimp only; split <;> omega)
    exact ⟨h.1, h.2.2.2.1, h.2.2.2.2⟩

/-- C4 on the eight-row scenario: one split of the depth-0 aggregate under either
strategy. -/
theorem Split_preserves_permutation_witness :
    (((SplitMirror scenarioTarget scenarioNextBins scenarioMirrorStep.DocMap
          (CreateSubsets 1 scenarioTarget)).Indices 0).Perm (List.range 8)
        ∧ List.Pairwise (fun a b => a ≤ b)
            ((SplitMirror scenarioTarget scenarioNextBins scenarioMirrorStep.DocMap
              (CreateSubsets 1 scenarioTarget)).Bins 0)
        ∧ (((SplitMirror scenarioTarget scenarioNextBins scenarioMirrorStep.DocMap
              (CreateSubsets 1 scenarioTarget)).Bins 0).zip
            ((SplitMirror scenarioTarget scenarioNextBins scenarioMirrorStep.DocMap
              (CreateSubsets 1 scenarioTarget)).Indices 0)).Perm
            ((UpdateBins ((CreateSubsets 1 scenarioTarget).Bins 0) (scenarioNextBins 0)
                (scenarioMirrorStep.DocMap 0) (CreateSubsets 1 scenarioTarget).CurrentDepth
                (CreateSubsets 1 scenarioTarget).FoldBits).zip
              ((CreateSubsets 1 scenarioTarget).Indices 0)))
      ∧ (((SplitStripe scenarioTest scenarioTarget scenarioStripeStep.CIndex
            scenarioStripeStep.DocsForBins scenarioStripeStep.Feature 0
            (CreateSubsets 1 scenarioTarget)).Indices 0).Perm (List.range 8)
        ∧ List.Pairwise (fun a b => a ≤ b)
            ((SplitStripe scenarioTest scenarioTarget scenarioStripeStep.CIndex
              scenarioStripeStep.DocsForBins scenarioStripeStep.Feature 0
              (CreateSubsets 1 scenarioTarget)).Bins 0)
        ∧ (((SplitStripe scenarioTest scenarioTarget scenarioStripeStep.CIndex
              scenarioStripeStep.DocsForBins scenarioStripeStep.Feature 0
              (CreateSubsets 1 scenarioTarget)).Bins 0).zip
            ((SplitStripe scenarioTest scenarioTarget scenarioStripeStep.CIndex
              scenarioStripeStep.DocsForBins scenarioStripeStep.Feature 0
              (CreateSubsets 1 scenarioTarget)).Indices 0)).Perm
            ((UpdateBinFromCompressedIndex scenarioTest (scenarioStripeStep.CIndex 0)
                (scenarioStripeStep.Feature 0) 0 (scenarioStripeStep.DocsForBins 0)
                ((CreateSubsets 1 scenarioTarget).CurrentDepth
                  + (CreateSubsets 1 scenarioTarget).FoldBits)
                ((CreateSubsets 1 scenarioTarget).Bins 0)).zip
              ((CreateSubsets 1 scenarioTarget).Indices 0))) :=
  Split_preserves_permutation scenarioTest scenarioTarget scenarioNextBins
    scenarioMirrorStep.DocMap scenarioStripeStep.CIndex scenarioStripeStep.DocsForBins
    scenarioStripeStep.Feature 0 (CreateSubsets 1 scenarioTarget) 0 (List.range 8)
    (by decide) (by decide) (by decide) (by decide) (by decide)

/-- C4 as stated fails where the `ui32` sum wraps: at `CurrentDepth = 2^32 - 1` and
`FoldBits = 1`, with next-level bit 0 for both rows, the header passes the offset
`CurrentDepth + FoldBits = 0` to `ReorderBins`, which reorders the sorted bins
`[1, 2]` by their lowest bit into `[2, 1]`. -/
theorem Split_wrap_counterexample :
    (wrapSubsets.Indices 0).Perm [0, 1]
      ∧ (wrapSubsets.Bins 0).length = (wrapSubsets.Indices 0).length
      ∧ (∀ b ∈ wrapSubsets.Bins 0, b < 2 ^ (wrapSubsets.CurrentDepth + wrapSubsets.FoldBits))
      ∧ List.Pairwise (fun a b => a ≤ b) (wrapSubsets.Bins 0)
      ∧ (SplitMirror wrapTarget wrapNextBins wrapSubsets.Indices
          wrapSubsets).Bins 0 = [2, 1]
      ∧ ¬ List.Pairwise (fun a b => a ≤ b)
          ((SplitMirror wrapTarget wrapNextBins wrapSubsets.Indices
            wrapSubsets).Bins 0) := by
  have hb : (SplitMirror wrapTarget wrapNextBins wrapSubsets.Indices
      wrapSubsets).Bins 0 = [2, 1] := by decide
  refine ⟨by decide, by decide, ?_, by decide, hb, ?_⟩
  · intro b hb2
    have h2 : b < 4294967296 := by
      have h3 : b ∈ [1, 2] := hb2
      simp only [List.mem_cons, List.mem_singleton, List.not_mem_nil, or_false] at h3
      omega
    exact Nat.lt_trans (Nat.lt_of_lt_of_le h2 (Nat.le_of_eq rfl))
      (Nat.lt_two_pow (wrapSubsets.CurrentDepth + wrapSubsets.FoldBits))
  · rw [hb]
    decide

/-! ## Sequences of splits -/

theorem SplitMirror_Partitions_length (src : TL2Target) (next docMap : TBuffer Nat)
    (s : TOptimizationSubsets) (dev : Nat) :
    ((SplitMirror src next docMap s).Partitions dev).length = (s.Partitions dev).length :=
  length_Partitions TMapping.Mirror src _ dev

theorem SplitStripe_Partitions_length {F : Type} (test : F → Nat → Nat → Bool)
    (src : TL2Target) (cindex docs : TBuffer Nat) (feature : Nat → F) (bin : Nat)
    (s : TOptimizationSubsets) (dev : Nat) :
    ((SplitStripe test src cindex docs feature bin s).Partitions dev).length
      = (s.Partitions dev).length :=
  length_Partitions TMapping.Stripe src _ dev

theorem runMirror_cons (src : TL2Target) (a : TMirrorStep) (steps : List TMirrorStep)
    (s : TOptimizationSubsets) :
    runMirror src (a :: steps) s
      = runMirror src steps (SplitMirror src a.NextLevelDocBins a.DocMap s) := rfl

theorem runStripe_cons {F : Type} (test : F → Nat → Nat → Bool) (src : TL2Target)
    (a : TStripeStep F) (steps : List (TStripeStep F)) (s : TOptimizationSubsets) :
    runStripe test src (a :: steps) s
      = runStripe test src steps
          (SplitStripe test src a.CIndex a.DocsForBins a.Feature a.Bin s) := rfl

/-- While the depth counter does not wrap, a run of mirror splits adds its length to the
depth and keeps the fold bits and the size of every table. -/
theorem runMirror_frame (src : TL2Target) (steps : List TMirrorStep) :
    ∀ (s : TOptimizationSubsets), s.CurrentDepth + steps.length < 2 ^ 32 →
      (runMirror src steps s).CurrentDepth = s.CurrentDepth + steps.length
        ∧ (runMirror src steps s).FoldBits = s.FoldBits
        ∧ ∀ dev, ((runMirror src steps s).Partitions dev).length = (s.Partitions dev).length := by
  induction steps with
  | nil => intro s _; exact ⟨rfl, rfl, fun _ => rfl⟩
  | cons a steps ih =>
    intro s hw
    rw [List.length_cons] at hw
    rw [runMirror_cons]
    have hd := SplitMirror_CurrentDepth src a.NextLevelDocBins a.DocMap s (by omega)
    obtain ⟨h1, h2, h3⟩ := ih (SplitMirror src a.NextLevelDocBins a.DocMap s)
      (by rw [hd]; omega)
    refine ⟨?_, ?_, ?_⟩
    · rw [h1, hd, List.length_cons]
      omega
    · rw [h2, SplitMirror_FoldBits]
    · intro dev
      rw [h3, SplitMirror_Partitions_length]

/-- While the depth counter does not wrap, a run of stripe splits adds its length to the
depth and keeps the fold bits and the size of every table. -/
theorem runStripe_frame {F : Type} (test : F → Nat → Nat → Bool) (src : TL2Target)
    (steps : List (TStripeStep F)) :
    ∀ (s : TOptimizationSubsets), s.CurrentDepth + steps.length < 2 ^ 32 →
      (runStripe test src steps s).CurrentDepth = s.CurrentDepth + steps.length
        ∧ (runStripe test src steps s).FoldBits = s.FoldBits
        ∧ ∀ dev, ((runStripe test src steps s).Partitions dev).length
            = (s.Partitions dev).length := by
  induction steps with
  | nil => intro s _; exact ⟨rfl, rfl, fun _ => rfl⟩
  | cons a steps ih =>
    intro s hw
    rw [List.length_cons] at hw
    rw [runStripe_cons]
    have hd := SplitStripe_CurrentDepth test src a.CIndex a.DocsForBins a.Feature a.Bin s
      (by omega)
    obtain ⟨h1, h2, h3⟩ := ih (SplitStripe test src a.CIndex a.DocsForBins a.Feature a.Bin s)
      (by rw [hd]; omega)
    refine ⟨?_, ?_, ?_⟩
    · rw [h1, hd, List.length_cons]
      omega
    · rw [h2, SplitStripe_FoldBits]
    · intro dev
      rw [h3, SplitStripe_Partitions_length]

theorem CreateSubsets_Partitions_length (maxDepth : Nat) (src : TL2Target) (dev : Nat)
    (hmax : maxDepth ≤ 31) :
    ((CreateSubsets maxDepth src).Partitions dev).length = 2 ^ maxDepth := by
  unfold CreateSubsets
  rw [length_Partitions]
  simp only [Reset, List.length_replicate]
  rw [addUi32_zero_left _ (by omega), toUi32_shlInt _ hmax]

/-- The frame of a run of stripe splits that follows `CreateSubsets maxDepth`. -/
theorem stripe_run_frame {F : Type} (test : F → Nat → Nat → Bool) (src : TL2Target)
    (steps : List (TStripeStep F)) (maxDepth dev : Nat)
    (hmax : maxDepth ≤ 31) (hlen : steps.length < 2 ^ 32) :
    (runStripe test src steps (CreateSubsets maxDepth src)).CurrentDepth = steps.length
      ∧ (runStripe test src steps (CreateSubsets maxDepth src)).FoldBits = 0
      ∧ ((runStripe test src steps (CreateSubsets maxDepth src)).Partitions dev).length
          = 2 ^ maxDepth := by
  obtain ⟨h1, h2, h3⟩ := runStripe_frame test src steps (CreateSubsets maxDepth src)
    (by show 0 + steps.length < 2 ^ 32; omega)
  refine ⟨?_, ?_, ?_⟩
  · rw [h1]
    show 0 + steps.length = steps.length
    omega
  · rw [h2]
    rfl
  · rw [h3, CreateSubsets_Partitions_length maxDepth src dev hmax]

/-! ## C3 -/

/-- C3 (amended). Depth and active-region size: under both strategies a `Split` call
on an aggregate whose depth counter is below `2^32 - 1` increases `CurrentDepth` by
exactly 1 and leaves `FoldBits` unchanged.  Hence after `k` mirror splits from a
depth-0 aggregate with `k + FoldBits ≤ 30` whose table holds at least
`2^(k+FoldBits)` entries the depth is `k` and `CurrentPartsView` is exactly the first
`2^(k+FoldBits)` entries of the partition table; after `k ≤ maxDepth ≤ 30` stripe
splits following `CreateSubsets maxDepth` the depth is `k`, `FoldBits` is 0 and the
view is exactly the first `2^k` table entries. -/
theorem Split_depth_and_active_region {F : Type} (test : F → Nat → Nat → Bool)
    (src : TL2Target) (s : TOptimizationSubsets) (ma : TMirrorStep) (sa : TStripeStep F)
    (msteps : List TMirrorStep) (ssteps : List (TStripeStep F))
    (s0 : TOptimizationSubsets) (maxDepth dev : Nat)
    (hwrap : s.CurrentDepth + 1 < 2 ^ 32)
    (h0 : s0.CurrentDepth = 0)
    (hm : msteps.length + s0.FoldBits ≤ 30)
    (hcap : 2 ^ (msteps.length + s0.FoldBits) ≤ (s0.Partitions dev).length)
    (hs : ssteps.length ≤ maxDepth)
    (hmax : maxDepth ≤ 30) :
    ((SplitMirror src ma.NextLevelDocBins ma.DocMap s).CurrentDepth = s.CurrentDepth + 1
        ∧ (SplitMirror src ma.NextLevelDocBins ma.DocMap s).FoldBits = s.FoldBits)
      ∧ ((SplitStripe test src sa.CIndex sa.DocsForBins sa.Feature sa.Bin s).CurrentDepth
            = s.CurrentDepth + 1
        ∧ (SplitStripe test src sa.CIndex sa.DocsForBins sa.Feature sa.Bin s).FoldBits
            = s.FoldBits)
      ∧ ((runMirror src msteps s0).CurrentDepth = msteps.length
          ∧ (runMirror src msteps s0).FoldBits = s0.FoldBits
          ∧ CurrentPartsView TMapping.Mirror (runMirror src msteps s0) dev
              = ((runMirror src msteps s0).Partitions dev).take
                  (2 ^ (msteps.length + s0.FoldBits))
          ∧ (CurrentPartsView TMapping.Mirror (runMirror src msteps s0) dev).length
              = 2 ^ (msteps.length + s0.FoldBits))
      ∧ ((runStripe test src ssteps (CreateSubsets maxDepth src)).CurrentDepth = ssteps.length
          ∧ (runStripe test src ssteps (CreateSubsets maxDepth src)).FoldBits = 0
          ∧ CurrentPartsView TMapping.Stripe
                (runStripe test src ssteps (CreateSubsets maxDepth src)) dev
              = ((runStripe test src ssteps (CreateSubsets maxDepth src)).Partitions dev).take
                  (2 ^ ssteps.length)
          ∧ (CurrentPartsView TMapping.Stripe
                (runStripe test src ssteps (CreateSubsets maxDepth src)) dev).length
              = 2 ^ ssteps.length) := by
  refine ⟨⟨SplitMirror_CurrentDepth _ _ _ _ hwrap, rfl⟩,
    ⟨SplitStripe_CurrentDepth _ _ _ _ _ _ _ hwrap, rfl⟩, ?_, ?_⟩
  · obtain ⟨h1, h2, h3⟩ := runMirror_frame src msteps s0 (by rw [h0]; omega)
    have hd : (runMirror src msteps s0).CurrentDepth = msteps.length := by
      rw [h1, h0, Nat.zero_add]
    have hv : CurrentPartsView TMapping.Mirror (runMirror src msteps s0) dev
        = ((runMirror src msteps s0).Partitions dev).take
            (2 ^ (msteps.length + s0.FoldBits)) := by
      have he := CurrentPartsView_eq_take TMapping.Mirror (runMirror src msteps s0) dev
        (by rw [hd, h2]; exact hm)
      rw [hd, h2] at he
      exact he
    refine ⟨hd, h2, hv, ?_⟩
    rw [hv, List.length_take, h3]
    exact Nat.min_eq_left hcap
  · obtain ⟨hd, hf, ht⟩ := stripe_run_frame test src ssteps maxDepth dev (by omega)
      (by omega)
    have hv : CurrentPartsView TMapping.Stripe
          (runStripe test src ssteps (CreateSubsets maxDepth src)) dev
        = ((runStripe test src ssteps (CreateSubsets maxDepth src)).Partitions dev).take
            (2 ^ ssteps.length) := by
      have he := CurrentPartsView_eq_take TMapping.Stripe
        (runStripe test src ssteps (CreateSubsets maxDepth src)) dev
        (by rw [hd, hf]; omega)
      rw [hd, hf, Nat.add_zero] at he
      exact he
    refine ⟨hd, hf, hv, ?_⟩
    rw [hv, List.length_take, ht]
    exact Nat.min_eq_left (Nat.pow_le_pow_right (by norm_num) hs)

/-- C3 on the eight-row scenario: one mirror split and one stripe split after
`CreateSubsets 1`. -/
theorem Split_depth_and_active_region_witness :
    ((SplitMirror scenarioTarget scenarioMirrorStep.NextLevelDocBins scenarioMirrorStep.DocMap
          (CreateSubsets 1 scenarioTarget)).CurrentDepth
          = (CreateSubsets 1 scenarioTarget).CurrentDepth + 1
        ∧ (SplitMirror scenarioTarget scenarioMirrorStep.NextLevelDocBins
            scenarioMirrorStep.DocMap (CreateSubsets 1 scenarioTarget)).FoldBits
          = (CreateSubsets 1 scenarioTarget).FoldBits)
      ∧ ((SplitStripe scenarioTest scenarioTarget scenarioStripeStep.CIndex
            scenarioStripeStep.DocsForBins scenarioStripeStep.Feature scenarioStripeStep.Bin
            (CreateSubsets 1 scenarioTarget)).CurrentDepth
            = (CreateSubsets 1 scenarioTarget).CurrentDepth + 1
        ∧ (SplitStripe scenarioTest scenarioTarget scenarioStripeStep.CIndex
            scenarioStripeStep.DocsForBins scenarioStripeStep.Feature scenarioStripeStep.Bin
            (CreateSubsets 1 scenarioTarget)).FoldBits
            = (CreateSubsets 1 scenarioTarget).FoldBits)
      ∧ ((runMirror scenarioTarget [scenarioMirrorStep]
            (CreateSubsets 1 scenarioTarget)).CurrentDepth = [scenarioMirrorStep].length
          ∧ (runMirror scenarioTarget [scenarioMirrorStep]
            (CreateSubsets 1 scenarioTarget)).FoldBits = (CreateSubsets 1 scenarioTarget).FoldBits
          ∧ CurrentPartsView TMapping.Mirror
              (runMirror scenarioTarget [scenarioMirrorStep] (CreateSubsets 1 scenarioTarget)) 0
              = ((runMirror scenarioTarget [scenarioMirrorStep]
                  (CreateSubsets 1 scenarioTarget)).Partitions 0).take
                  (2 ^ ([scenarioMirrorStep].length + (CreateSubsets 1 scenarioTarget).FoldBits))
          ∧ (CurrentPartsView TMapping.Mirror
              (runMirror scenarioTarget [scenarioMirrorStep]
                (CreateSubsets 1 scenarioTarget)) 0).length
              = 2 ^ ([scenarioMirrorStep].length + (CreateSubsets 1 scenarioTarget).FoldBits))
      ∧ ((runStripe scenarioTest scenarioTarget [scenarioStripeStep]
            (CreateSubsets 1 scenarioTarget)).CurrentDepth = [scenarioStripeStep].length
          ∧ (runStripe scenarioTest scenarioTarget [scenarioStripeStep]
            (CreateSubsets 1 scenarioTarget)).FoldBits = 0
          ∧ CurrentPartsView TMapping.Stripe
                (runStripe scenarioTest scenarioTarget [scenarioStripeStep]
                  (CreateSubsets 1 scenarioTarget)) 0
              = ((runStripe scenarioTest scenarioTarget [scenarioStripeStep]
                  (CreateSubsets 1 scenarioTarget)).Partitions 0).take
                  (2 ^ [scenarioStripeStep].length)
          ∧ (CurrentPartsView TMapping.Stripe
                (runStripe scenarioTest scenarioTarget [scenarioStripeStep]
                  (CreateSubsets 1 scenarioTarget)) 0).length
              = 2 ^ [scenarioStripeStep].length) :=
  Split_depth_and_active_region scenarioTest scenarioTarget (CreateSubsets 1 scenarioTarget)
    scenarioMirrorStep scenarioStripeStep [scenarioMirrorStep] [scenarioStripeStep]
    (CreateSubsets 1 scenarioTarget) 1 0 (by decide) rfl (by decide) (by decide) (by decide)
    (by decide)

/-- C3 as stated fails at depth 31 under the mirror mapping: after 31 splits of a
depth-0 aggregate whose table holds `2^31 + 1` entries the depth is 31, the slice
taken by `CurrentPartsView` ends at `2^64 - 2^31`, and the view is not the first
`2^31` entries of the table. -/
theorem Split_depth31_counterexample :
    (runMirror emptyTarget (List.replicate 31 emptyMirrorStep) wideSubsets).CurrentDepth = 31
      ∧ (currentSlice
          (runMirror emptyTarget (List.replicate 31 emptyMirrorStep) wideSubsets)).Right
          = 2 ^ 64 - 2 ^ 31
      ∧ CurrentPartsView TMapping.Mirror
            (runMirror emptyTarget (List.replicate 31 emptyMirrorStep) wideSubsets) 0
          ≠ ((runMirror emptyTarget (List.replicate 31 emptyMirrorStep) wideSubsets).Partitions
              0).take
              (2 ^ (31 + (runMirror emptyTarget (List.replicate 31 emptyMirrorStep)
                wideSubsets).FoldBits)) := by
  obtain ⟨h1, h2, h3⟩ := runMirror_frame emptyTarget (List.replicate 31 emptyMirrorStep)
    wideSubsets (by rw [List.length_replicate]; decide)
  have hd : (runMirror emptyTarget (List.replicate 31 emptyMirrorStep) wideSubsets).CurrentDepth
      = 31 := by
    rw [h1, List.length_replicate]
    rfl
  have hf : (runMirror emptyTarget (List.replicate 31 emptyMirrorStep) wideSubsets).FoldBits
      = 0 := by
    rw [h2]
    rfl
  have ht : ((runMirror emptyTarget (List.replicate 31 emptyMirrorStep) wideSubsets).Partitions
      0).length = 2 ^ 31 + 1 := by
    rw [h3]
    show (List.replicate (2 ^ 31 + 1) _).length = 2 ^ 31 + 1
    rw [List.length_replicate]
  have hr : (currentSlice
      (runMirror emptyTarget (List.replicate 31 emptyMirrorStep) wideSubsets)).Right
      = 2 ^ 64 - 2 ^ 31 := by
    rw [currentSlice_of_eq _ 31 (by rw [hd, hf]) (by decide), toUi64_shlInt_31]
  refine ⟨hd, hr, ?_⟩
  intro h
  have hl := congrArg List.length h
  rw [length_CurrentPartsView, hr, List.length_take, ht, hf] at hl
  revert hl
  decide

/-! ## Geometry of the refreshed partition table -/

/-- C7. Concrete scenario: from the depth-0 aggregate built by `CreateSubsets 1` over
eight rows with weights 1 and targets 1..8, one split whose next-level bin of row `r`
is `r mod 2` gives depth 1, row bins `[0,1,0,1,0,1,0,1]` (the bin buffer, kept in
permuted order, is `[0,0,0,0,1,1,1,1]`), the permutation `[0,2,4,6,1,3,5,7]`, the
active partition table `[{0,4},{4,4}]` and the statistics `[{16,4},{20,4}]`. -/
theorem scenario_split :
    (SplitMirror scenarioTarget scenarioNextBins (CreateSubsets 1 scenarioTarget).Indices
        (CreateSubsets 1 scenarioTarget)).CurrentDepth = 1
      ∧ rowBins (SplitMirror scenarioTarget scenarioNextBins
          (CreateSubsets 1 scenarioTarget).Indices (CreateSubsets 1 scenarioTarget)) 0
          = [0, 1, 0, 1, 0, 1, 0, 1]
      ∧ (SplitMirror scenarioTarget scenarioNextBins (CreateSubsets 1 scenarioTarget).Indices
          (CreateSubsets 1 scenarioTarget)).Bins 0 = [0, 0, 0, 0, 1, 1, 1, 1]
      ∧ (SplitMirror scenarioTarget scenarioNextBins (CreateSubsets 1 scenarioTarget).Indices
          (CreateSubsets 1 scenarioTarget)).Indices 0 = [0, 2, 4, 6, 1, 3, 5, 7]
      ∧ CurrentPartsView TMapping.Mirror
          (SplitMirror scenarioTarget scenarioNextBins (CreateSubsets 1 scenarioTarget).Indices
            (CreateSubsets 1 scenarioTarget)) 0
          = [{ Offset := 0, Size := 4 }, { Offset := 4, Size := 4 }]
      ∧ (SplitMirror scenarioTarget scenarioNextBins (CreateSubsets 1 scenarioTarget).Indices
          (CreateSubsets 1 scenarioTarget)).PartitionStats 0
          = [{ Sum := 16, Weight := 4 }, { Sum := 20, Weight := 4 }] := by
  refine ⟨rfl, ?_, ?_, ?_, ?_, ?_⟩ <;> decide

/-! ## C9 -/

/-- C9. Device projection: `DeviceView dev` returns the shard of device `dev` of each of
the six buffers together with copies of `FoldCount`, `CurrentDepth` and `FoldBits`.
The projection is a function of the aggregate, which it cannot change. -/
theorem DeviceView_projection (s : TOptimizationSubsets) (dev : Nat) :
    (s.DeviceView dev).Bins = s.Bins dev
      ∧ (s.DeviceView dev).Indices = s.Indices dev
      ∧ (s.DeviceView dev).Partitions = s.Partitions dev
      ∧ (s.DeviceView dev).PartitionStats = s.PartitionStats dev
      ∧ (s.DeviceView dev).WeightedTarget = s.WeightedTarget dev
      ∧ (s.DeviceView dev).Weights = s.Weights dev
      ∧ (s.DeviceView dev).FoldCount = s.FoldCount
      ∧ (s.DeviceView dev).CurrentDepth = s.CurrentDepth
      ∧ (s.DeviceView dev).FoldBits = s.FoldBits :=
  ⟨rfl, rfl, rfl, rfl, rfl, rfl, rfl, rfl, rfl⟩

/-! ## C10 -/

/-- C10 (amended). The active region stays within the allocated table: for
`maxDepth ≤ 30` and `k ≤ maxDepth` splits after `CreateSubsets maxDepth` the table of
every device keeps exactly `2^maxDepth` entries and the slice of `CurrentPartsView`
is `[0, 2^(CurrentDepth+FoldBits))`, inside the table.  After `maxDepth + 1` splits
the slice end exceeds the table; it is `2^(maxDepth+1)` when `maxDepth ≤ 29` and
`2^64 - 2^31` when `maxDepth = 30`. -/
theorem active_region_within_table {F : Type} (test : F → Nat → Nat → Bool)
    (src : TL2Target) (steps full : List (TStripeStep F)) (maxDepth dev : Nat)
    (hmax : maxDepth ≤ 30) (hk : steps.length ≤ maxDepth)
    (hfull : full.length = maxDepth + 1) :
    ((runStripe test src steps (CreateSubsets maxDepth src)).Partitions dev).length
        = 2 ^ maxDepth
      ∧ (currentSlice (runStripe test src steps (CreateSubsets maxDepth src))).Left = 0
      ∧ (currentSlice (runStripe test src steps (CreateSubsets maxDepth src))).Right
          = 2 ^ ((runStripe test src steps (CreateSubsets maxDepth src)).CurrentDepth
              + (runStripe test src steps (CreateSubsets maxDepth src)).FoldBits)
      ∧ (currentSlice (runStripe test src steps (CreateSubsets maxDepth src))).Right
          ≤ ((runStripe test src steps (CreateSubsets maxDepth src)).Partitions dev).length
      ∧ ((runStripe test src full (CreateSubsets maxDepth src)).Partitions dev).length
          < (currentSlice (runStripe test src full (CreateSubsets maxDepth src))).Right
      ∧ (currentSlice (runStripe test src full (CreateSubsets maxDepth src))).Right
          = (if maxDepth ≤ 29 then 2 ^ (maxDepth + 1) else 2 ^ 64 - 2 ^ 31) := by
  obtain ⟨hd1, hf1, ht⟩ := stripe_run_frame test src steps maxDepth dev (by omega) (by omega)
  obtain ⟨hd3, hf3, ht2⟩ := stripe_run_frame test src full maxDepth dev (by omega) (by omega)
  have hd : (runStripe test src steps (CreateSubsets maxDepth src)).CurrentDepth
      + (runStripe test src steps (CreateSubsets maxDepth src)).FoldBits = steps.length := by
    rw [hd1, hf1, Nat.add_zero]
  have hd2 : (runStripe test src full (CreateSubsets maxDepth src)).CurrentDepth
      + (runStripe test src full (CreateSubsets maxDepth src)).FoldBits = full.length := by
    rw [hd3, hf3, Nat.add_zero]
  have hright : (currentSlice (runStripe test src full (CreateSubsets maxDepth src))).Right
      = (if maxDepth ≤ 29 then 2 ^ (maxDepth + 1) else 2 ^ 64 - 2 ^ 31) := by
    rw [currentSlice_of_eq _ _ hd2 (by omega), hfull]
    by_cases h29 : maxDepth ≤ 29
    · rw [if_pos h29, toUi64_shlInt _ (by omega)]
    · have h30 : maxDepth = 30 := by omega
      subst h30
      rfl
  refine ⟨ht, rfl, ?_, ?_, ?_, hright⟩
  · rw [currentSlice_of_eq _ _ hd (by omega), toUi64_shlInt _ (by omega), hd]
  · rw [currentSlice_of_eq _ _ hd (by omega), toUi64_shlInt _ (by omega), ht]
    exact Nat.pow_le_pow_right (by norm_num) hk
  · rw [ht2, hright]
    by_cases h29 : maxDepth ≤ 29
    · rw [if_pos h29]
      exact Nat.pow_lt_pow_right (by norm_num) (by omega)
    · have h30 : maxDepth = 30 := by omega
      subst h30
      decide

/-- C10 on the scenario: `CreateSubsets 1` and one split stay inside the table of two
entries, a second split asks for four entries. -/
theorem active_region_within_table_witness :
    ((runStripe scenarioTest scenarioTarget [scenarioStripeStep]
        (CreateSubsets 1 scenarioTarget)).Partitions 0).length = 2 ^ 1
      ∧ (currentSlice (runStripe scenarioTest scenarioTarget [scenarioStripeStep]
          (CreateSubsets 1 scenarioTarget))).Left = 0
      ∧ (currentSlice (runStripe scenarioTest scenarioTarget [scenarioStripeStep]
          (CreateSubsets 1 scenarioTarget))).Right
          = 2 ^ ((runStripe scenarioTest scenarioTarget [scenarioStripeStep]
                (CreateSubsets 1 scenarioTarget)).CurrentDepth
              + (runStripe scenarioTest scenarioTarget [scenarioStripeStep]
                (CreateSubsets 1 scenarioTarget)).FoldBits)
      ∧ (currentSlice (runStripe scenarioTest scenarioTarget [scenarioStripeStep]
          (CreateSubsets 1 scenarioTarget))).Right
          ≤ ((runStripe scenarioTest scenarioTarget [scenarioStripeStep]
              (CreateSubsets 1 scenarioTarget)).Partitions 0).length
      ∧ ((runStripe scenarioTest scenarioTarget [scenarioStripeStep, scenarioStripeStep]
          (CreateSubsets 1 scenarioTarget)).Partitions 0).length
          < (currentSlice (runStripe scenarioTest scenarioTarget
              [scenarioStripeStep, scenarioStripeStep] (CreateSubsets 1 scenarioTarget))).Right
      ∧ (currentSlice (runStripe scenarioTest scenarioTarget
            [scenarioStripeStep, scenarioStripeStep] (CreateSubsets 1 scenarioTarget))).Right
          = (if 1 ≤ 29 then 2 ^ (1 + 1) else 2 ^ 64 - 2 ^ 31) :=
  active_region_within_table scenarioTest scenarioTarget [scenarioStripeStep]
    [scenarioStripeStep, scenarioStripeStep] 1 0 (by decide) (by decide) (by decide)

/-- C10 as stated fails at `maxDepth = 30`: the 31st split asks for the slice end
`static_cast<ui64>(1 << 31) = 2^64 - 2^31`, not `2^31`. -/
theorem active_region_maxDepth30_counterexample :
    (currentSlice (runStripe scenarioTest emptyTarget (List.replicate 31 emptyStripeStep)
        (CreateSubsets 30 emptyTarget))).Right ≠ 2 ^ (30 + 1) := by
  obtain ⟨h1, h2, _⟩ := stripe_run_frame scenarioTest emptyTarget
    (List.replicate 31 emptyStripeStep) 30 0 (by decide)
    (by rw [List.length_replicate]; decide)
  have hd : (runStripe scenarioTest emptyTarget (List.replicate 31 emptyStripeStep)
        (CreateSubsets 30 emptyTarget)).CurrentDepth
      + (runStripe scenarioTest emptyTarget (List.replicate 31 emptyStripeStep)
        (CreateSubsets 30 emptyTarget)).FoldBits = 31 := by
    rw [h1, h2, List.length_replicate]
  rw [currentSlice_of_eq _ _ hd (by decide), toUi64_shlInt_31]
  decide

/-! ## Bins as a function of the row -/

end NCatboostCuda
